import Mathlib

/-!
Shallow embedding of the Sentiq recruiter-screening backend
(`llm_adapter.py`, `recruiter_agent.py`, `name_extractor.py`, `db.py`,
`screening_service.py`) together with proofs settling the frozen claims
about its specification.

Conventions used throughout:
* Python floats are modelled as `ℚ` (the code only performs exact
  arithmetic of the kind `a + b*c`, `min`, division by constants and
  2-decimal rounding, for which `ℚ` is faithful).
* Wall-clock time (`time.time()`) is passed in explicitly as a `ℚ` value.
* The SHA-256 hex digest (`hashlib.sha256(...).hexdigest()`) is an external
  library primitive; every definition that uses it is parameterised over an
  arbitrary digest function `sha : String → String`, so each theorem holds
  for every choice of digest, in particular for real SHA-256.
* Fallible Python code is modelled with `Option`/`Except`; an
  `Except.error` value corresponds to an uncaught Python exception.
-/

namespace Sentiq

/-- Python/JSON values, as produced by `json.loads` and manipulated by the
pipeline (`dict` is an association list in insertion order). -/
inductive PyVal : Type where
  | null : PyVal
  | bool : Bool → PyVal
  | num : ℚ → PyVal
  | str : String → PyVal
  | arr : List PyVal → PyVal
  | obj : List (String × PyVal) → PyVal
deriving Repr, Inhabited

mutual

/-- Structural equality on `PyVal` (decidable equality is derived from it
below; the automatic deriving handler does not support this nested
inductive). -/
def PyVal.beq : PyVal → PyVal → Bool
  | .null, .null => true
  | .bool a, .bool b => a = b
  | .num a, .num b => a = b
  | .str a, .str b => a = b
  | .arr xs, .arr ys => PyVal.beqList xs ys
  | .obj xs, .obj ys => PyVal.beqKVs xs ys
  | _, _ => false

def PyVal.beqList : List PyVal → List PyVal → Bool
  | [], [] => true
  | x :: xs, y :: ys => PyVal.beq x y && PyVal.beqList xs ys
  | _, _ => false

def PyVal.beqKVs : List (String × PyVal) → List (String × PyVal) → Bool
  | [], [] => true
  | (k, v) :: xs, (l, w) :: ys => k = l && PyVal.beq v w && PyVal.beqKVs xs ys
  | _, _ => false

end

mutual

theorem PyVal.eq_of_beq : ∀ {a b : PyVal}, PyVal.beq a b = true → a = b
  | .null, .null, _ => rfl
  | .bool a, .bool b, h => by
      simpa [PyVal.beq, decide_eq_true_eq] using h
  | .num a, .num b, h => by
      simpa [PyVal.beq, decide_eq_true_eq] using h
  | .str a, .str b, h => by
      simpa [PyVal.beq, decide_eq_true_eq] using h
  | .arr xs, .arr ys, h =>
      congrArg PyVal.arr (PyVal.eqList_of_beqList (by simpa [PyVal.beq] using h))
  | .obj xs, .obj ys, h =>
      congrArg PyVal.obj (PyVal.eqKVs_of_beqKVs (by simpa [PyVal.beq] using h))
  | .null, .bool _, h | .null, .num _, h | .null, .str _, h
  | .null, .arr _, h | .null, .obj _, h
  | .bool _, .null, h | .bool _, .num _, h | .bool _, .str _, h
  | .bool _, .arr _, h | .bool _, .obj _, h
  | .num _, .null, h | .num _, .bool _, h | .num _, .str _, h
  | .num _, .arr _, h | .num _, .obj _, h
  | .str _, .null, h | .str _, .bool _, h | .str _, .num _, h
  | .str _, .arr _, h | .str _, .obj _, h
  | .arr _, .null, h | .arr _, .bool _, h | .arr _, .num _, h
  | .arr _, .str _, h | .arr _, .obj _, h
  | .obj _, .null, h | .obj _, .bool _, h | .obj _, .num _, h
  | .obj _, .str _, h | .obj _, .arr _, h => Bool.noConfusion h

theorem PyVal.eqList_of_beqList :
    ∀ {xs ys : List PyVal}, PyVal.beqList xs ys = true → xs = ys
  | [], [], _ => rfl
  | x :: xs, y :: ys, h => by
      have h' := h
      simp only [PyVal.beqList, Bool.and_eq_true] at h'
      rw [PyVal.eq_of_beq h'.1, PyVal.eqList_of_beqList h'.2]
  | [], _ :: _, h | _ :: _, [], h => Bool.noConfusion h

theorem PyVal.eqKVs_of_beqKVs :
    ∀ {xs ys : List (String × PyVal)}, PyVal.beqKVs xs ys = true → xs = ys
  | [], [], _ => rfl
  | (k, v) :: xs, (l, w) :: ys, h => by
      have h' := h
      simp only [PyVal.beqKVs, Bool.and_eq_true, decide_eq_true_eq] at h'
      rw [h'.1.1, PyVal.eq_of_beq h'.1.2, PyVal.eqKVs_of_beqKVs h'.2]
  | [], _ :: _, h | _ :: _, [], h => Bool.noConfusion h

end

mutual

theorem PyVal.beq_refl : ∀ a : PyVal, PyVal.beq a a = true
  | .null => rfl
  | .bool a => by simp [PyVal.beq]
  | .num a => by simp [PyVal.beq]
  | .str a => by simp [PyVal.beq]
  | .arr xs => by simpa [PyVal.beq] using PyVal.beqList_refl xs
  | .obj xs => by simpa [PyVal.beq] using PyVal.beqKVs_refl xs

theorem PyVal.beqList_refl : ∀ xs : List PyVal, PyVal.beqList xs xs = true
  | [] => rfl
  | x :: xs => by
      simp only [PyVal.beqList, Bool.and_eq_true]
      exact ⟨PyVal.beq_refl x, PyVal.beqList_refl xs⟩

theorem PyVal.beqKVs_refl :
    ∀ xs : List (String × PyVal), PyVal.beqKVs xs xs = true
  | [] => rfl
  | (k, v) :: xs => by
      simp only [PyVal.beqKVs, Bool.and_eq_true]
      exact ⟨⟨by simp, PyVal.beq_refl v⟩, PyVal.beqKVs_refl xs⟩

end

instance : DecidableEq PyVal := fun a b =>
  decidable_of_iff (PyVal.beq a b = true)
    ⟨PyVal.eq_of_beq, fun h => h ▸ PyVal.beq_refl a⟩

/-- Python truthiness (`bool(v)`): `None`, `False`, `0`, `""`, `[]`, `{}`
are falsy. -/
def pyFalsy : PyVal → Bool
  | .null => true
  | .bool b => !b
  | .num q => q = 0
  | .str s => s = ""
  | .arr xs => xs.isEmpty
  | .obj kvs => kvs.isEmpty

/-- `d.get(k)` on a Python dict built by `json.loads`: duplicate keys keep
the last binding, so we look the key up from the right. -/
def dictGet (kvs : List (String × PyVal)) (k : String) : Option PyVal :=
  (kvs.reverse.find? (fun kv => kv.1 = k)).map (·.2)

/-- `v.get(k, default)`; only defined for dicts (calling `.get` on any
other value raises `AttributeError`, which callers model separately). -/
def pyGetD (v : PyVal) (k : String) (dflt : PyVal) : PyVal :=
  match v with
  | .obj kvs => (dictGet kvs k).getD dflt
  | _ => dflt

/-- `v.get(k)` (default `None`) for dicts. -/
def pyGet (v : PyVal) (k : String) : PyVal := pyGetD v k .null

def PyVal.isObj : PyVal → Bool
  | .obj _ => true
  | _ => false

/-- Numeric view used by Python comparison operators (`score >= 75`):
ints/floats compare numerically, `bool` is numeric (`True == 1`), and any
other operand raises `TypeError` (modelled as `none`). -/
def pyNumeric : PyVal → Option ℚ
  | .num q => some q
  | .bool b => some (if b then 1 else 0)
  | _ => none

/-- Python `s[:n]`: the first `n` characters. -/
def pyTake (s : String) (n : ℕ) : String := String.mk (s.data.take n)

/-- Python `str.strip()`: drop leading and trailing whitespace. -/
def pyStrip (s : String) : String :=
  String.mk (((s.data.dropWhile Char.isWhitespace).reverse.dropWhile
    Char.isWhitespace).reverse)

def pySplitAux : List Char → List Char → List String
  | [], acc => if acc.isEmpty then [] else [String.mk acc.reverse]
  | c :: cs, acc =>
      if c.isWhitespace then
        if acc.isEmpty then pySplitAux cs []
        else String.mk acc.reverse :: pySplitAux cs []
      else pySplitAux cs (c :: acc)

/-- `str.split()` with no argument: split on whitespace runs, dropping
empty fields. -/
def pySplit (s : String) : List String := pySplitAux s.data []

/-- SQLite storage classes (`sqlite3` maps Python `None`/`int`/`float`/`str`
to these; `list`/`dict` parameters raise `InterfaceError`). -/
inductive SQLVal : Type where
  | null : SQLVal
  | int : ℤ → SQLVal
  | real : ℚ → SQLVal
  | text : String → SQLVal
deriving DecidableEq, Repr, Inhabited

/-- Conversion of a Python value to a SQLite parameter: `none` models the
`sqlite3.InterfaceError` raised for unsupported types.  A numeric `PyVal`
with denominator 1 is a Python `int` and is stored as INTEGER. -/
def toSQL : PyVal → Option SQLVal
  | .null => some .null
  | .bool b => some (.int (if b then 1 else 0))
  | .num q => some (if q.den = 1 then .int q.num else .real q)
  | .str s => some (.text s)
  | .arr _ => none
  | .obj _ => none

/-- Reading a SQLite column back into Python (`cursor.fetchone()` fields). -/
def toPy : SQLVal → PyVal
  | .null => .null
  | .int n => .num n
  | .real q => .num q
  | .text s => .str s

/-- `round(q, 2)` as used on the decision confidences.  The Python call
rounds a float to 2 decimal places; on the exact rationals produced by the
decision formulas no representation ties arise, so rounding to the nearest
multiple of 1/100 is faithful. -/
def pyRound2 (q : ℚ) : ℚ := (round (q * 100) : ℤ) / 100

/-! ## JSON (`json.loads` / `json.dumps`)

A faithful executable model of the strict JSON decoding used by the code
(`json.loads` raises on malformed input, trailing garbage, invalid
escapes and unescaped control characters).  The non-standard Python
extensions `NaN`/`Infinity` and surrogate-pair recombination are not
modelled; no claim depends on them. -/

/-- The literal characters `{` and `}` (written by code point). -/
def lbrace : Char := Char.ofNat 123

def rbrace : Char := Char.ofNat 125

/-- JSON insignificant whitespace. -/
def jsonWs (c : Char) : Bool := c = ' ' ∨ c = '\t' ∨ c = '\n' ∨ c = '\r'

def skipWs : List Char → List Char
  | c :: cs => if jsonWs c then skipWs cs else c :: cs
  | [] => []

def digitVal (c : Char) : ℕ := c.toNat - '0'.toNat

/-- Longest leading run of decimal digits. -/
def takeDigits : List Char → List Char × List Char
  | c :: cs =>
      if c.isDigit then
        let (ds, r) := takeDigits cs
        (c :: ds, r)
      else ([], c :: cs)
  | [] => ([], [])

def digitsToNat (ds : List Char) : ℕ :=
  ds.foldl (fun a c => a * 10 + digitVal c) 0

def hexVal (c : Char) : Option ℕ :=
  if c.isDigit then some (c.toNat - '0'.toNat)
  else if 'a' ≤ c ∧ c ≤ 'f' then some (c.toNat - 'a'.toNat + 10)
  else if 'A' ≤ c ∧ c ≤ 'F' then some (c.toNat - 'A'.toNat + 10)
  else none

/-- JSON number grammar: `-? int frac? exp?` with `int = 0 | [1-9][0-9]*`.
Returns the exact rational value and the remaining input. -/
def parseJsonNumber (cs : List Char) : Option (ℚ × List Char) :=
  let (neg, cs) := match cs with
    | '-' :: rest => (true, rest)
    | _ => (false, cs)
  let (intDs, cs) := takeDigits cs
  match intDs with
  | [] => none
  | d0 :: rest0 =>
    if d0 = '0' ∧ rest0 ≠ [] then none
    else
      let intPart : ℚ := (digitsToNat intDs : ℤ)
      let fracStep : Option (ℚ × List Char) :=
        match cs with
        | '.' :: cs2 =>
            let (fracDs, cs3) := takeDigits cs2
            if fracDs = [] then none
            else some (intPart + (digitsToNat fracDs : ℚ) / ((10 : ℚ) ^ fracDs.length), cs3)
        | _ => some (intPart, cs)
      match fracStep with
      | none => none
      | some (mant, cs4) =>
        let expStep : Option (ℚ × List Char) :=
          match cs4 with
          | 'e' :: cs5 | 'E' :: cs5 =>
              let (eneg, cs6) := match cs5 with
                | '-' :: r => (true, r)
                | '+' :: r => (false, r)
                | _ => (false, cs5)
              let (expDs, cs7) := takeDigits cs6
              if expDs = [] then none
              else
                let e := digitsToNat expDs
                some ((if eneg then mant / (10 : ℚ) ^ e else mant * (10 : ℚ) ^ e), cs7)
          | _ => some (mant, cs4)
        expStep.map (fun (v, r) => ((if neg then -v else v), r))

/-- Body of a JSON string, after the opening quote; `none` models a decode
error (unterminated string, bad escape, raw control character). -/
def parseJsonStringBody : Nat → List Char → Option (List Char × List Char)
  | 0, _ => none
  | _, [] => none
  | fuel + 1, c :: cs =>
    if c = '"' then some ([], cs)
    else if c = '\\' then
      match cs with
      | [] => none
      | e :: cs2 =>
        if e = 'u' then
          match cs2 with
          | h1 :: h2 :: h3 :: h4 :: cs3 =>
            match hexVal h1, hexVal h2, hexVal h3, hexVal h4 with
            | some a, some b, some c4, some d =>
                (parseJsonStringBody fuel cs3).map
                  (fun (s, r) => (Char.ofNat (((a * 16 + b) * 16 + c4) * 16 + d) :: s, r))
            | _, _, _, _ => none
          | _ => none
        else
          let dec : Option Char :=
            if e = '"' then some '"'
            else if e = '\\' then some '\\'
            else if e = '/' then some '/'
            else if e = 'b' then some (Char.ofNat 8)
            else if e = 'f' then some (Char.ofNat 12)
            else if e = 'n' then some '\n'
            else if e = 'r' then some '\r'
            else if e = 't' then some '\t'
            else none
          match dec with
          | some ch => (parseJsonStringBody fuel cs2).map (fun (s, r) => (ch :: s, r))
          | none => none
    else if c.toNat < 32 then none
    else (parseJsonStringBody fuel cs).map (fun (s, r) => (c :: s, r))

mutual

/-- One JSON value (with leading whitespace), returning the remainder. -/
def parseJsonValue : Nat → List Char → Option (PyVal × List Char)
  | 0, _ => none
  | fuel + 1, cs =>
    match skipWs cs with
    | [] => none
    | 'n' :: 'u' :: 'l' :: 'l' :: rest => some (.null, rest)
    | 't' :: 'r' :: 'u' :: 'e' :: rest => some (.bool true, rest)
    | 'f' :: 'a' :: 'l' :: 's' :: 'e' :: rest => some (.bool false, rest)
    | '"' :: rest =>
        (parseJsonStringBody fuel rest).map (fun (s, r) => (.str (String.mk s), r))
    | '[' :: rest =>
        (match skipWs rest with
         | ']' :: r => some (.arr [], r)
         | rest' => (parseJsonItems fuel rest').map (fun (vs, r) => (.arr vs, r)))
    | c :: rest =>
        if c = lbrace then
          (match skipWs rest with
           | r0 :: r =>
               if r0 = rbrace then some (.obj [], r)
               else (parseJsonMembers fuel (r0 :: r)).map (fun (kvs, r') => (.obj kvs, r'))
           | [] => none)
        else if c = '-' ∨ c.isDigit then
          (parseJsonNumber (c :: rest)).map (fun (q, r) => (.num q, r))
        else none

/-- Comma-separated array elements up to the closing bracket. -/
def parseJsonItems : Nat → List Char → Option (List PyVal × List Char)
  | 0, _ => none
  | fuel + 1, cs =>
    (parseJsonValue fuel cs).bind (fun (v, r) =>
      match skipWs r with
      | ',' :: r2 => (parseJsonItems fuel r2).map (fun (vs, r3) => (v :: vs, r3))
      | ']' :: r2 => some ([v], r2)
      | _ => none)

/-- Comma-separated `"key": value` members up to the closing brace. -/
def parseJsonMembers : Nat → List Char → Option (List (String × PyVal) × List Char)
  | 0, _ => none
  | fuel + 1, cs =>
    match skipWs cs with
    | '"' :: rest =>
      (parseJsonStringBody fuel rest).bind (fun (k, r) =>
        match skipWs r with
        | ':' :: r2 =>
          (parseJsonValue fuel r2).bind (fun (v, r3) =>
            match skipWs r3 with
            | ',' :: r4 =>
                (parseJsonMembers fuel r4).map
                  (fun (kvs, r5) => ((String.mk k, v) :: kvs, r5))
            | c :: r4 =>
                if c = rbrace then some ([(String.mk k, v)], r4) else none
            | [] => none)
        | _ => none)
    | _ => none

end

/-- `json.loads`: decode one JSON document, rejecting trailing garbage.
The fuel `2·|s| + 8` dominates the recursion depth of any input of length
`|s|`, so it never cuts off a real parse. -/
def json_loads (s : String) : Option PyVal :=
  match parseJsonValue (2 * s.length + 8) s.data with
  | some (v, rest) => if skipWs rest = [] then some v else none
  | none => none

/-- Decimal rendering of the rationals that arise from decoded JSON
numbers (whose reduced denominator always divides a power of ten). -/
def decimalString (q : ℚ) : String :=
  if q.den = 1 then toString q.num
  else
    match (List.range 64).find? (fun k => (q * (10 : ℚ) ^ k).den = 1) with
    | some k =>
        let scaled := (q * (10 : ℚ) ^ k).num
        let sign := if scaled < 0 then "-" else ""
        let digits := toString scaled.natAbs
        let padded :=
          if digits.length ≤ k then
            String.mk (List.replicate (k + 1 - digits.length) '0') ++ digits
          else digits
        sign ++ String.mk (padded.data.take (padded.length - k)) ++ "." ++
          String.mk (padded.data.drop (padded.length - k))
    | none => toString q.num ++ "e0"

/-- String escaping of `json.dumps` (default `ensure_ascii=True`); astral
code points are emitted as a single `\\uXXXX` escape rather than a
surrogate pair (no claim inspects dumped text). -/
def jsonDumpChar (c : Char) : String :=
  if c = '"' then "\\\""
  else if c = '\\' then "\\\\"
  else if c = '\n' then "\\n"
  else if c = '\r' then "\\r"
  else if c = '\t' then "\\t"
  else if c.toNat = 8 then "\\b"
  else if c.toNat = 12 then "\\f"
  else if c.toNat < 32 ∨ 127 ≤ c.toNat then
    let hex := Nat.toDigits 16 c.toNat
    "\\u" ++ String.mk (List.replicate (4 - hex.length) '0') ++ String.mk hex
  else String.singleton c

mutual

/-- `json.dumps` with its default separators. -/
def jsonDumps : PyVal → String
  | .null => "null"
  | .bool b => if b then "true" else "false"
  | .num q => decimalString q
  | .str s => "\"" ++ String.join (s.data.map jsonDumpChar) ++ "\""
  | .arr xs => "[" ++ jsonDumpsList xs ++ "]"
  | .obj kvs => String.singleton lbrace ++ jsonDumpsKVs kvs ++ String.singleton rbrace

def jsonDumpsList : List PyVal → String
  | [] => ""
  | [x] => jsonDumps x
  | x :: y :: xs => jsonDumps x ++ ", " ++ jsonDumpsList (y :: xs)

def jsonDumpsKVs : List (String × PyVal) → String
  | [] => ""
  | [(k, v)] => jsonDumps (.str k) ++ ": " ++ jsonDumps v
  | (k, v) :: kv :: kvs =>
      jsonDumps (.str k) ++ ": " ++ jsonDumps v ++ ", " ++ jsonDumpsKVs (kv :: kvs)

end

/-- `float(str)`: Python is laxer than JSON (`"+1"`, `"1."`, `".5"`,
surrounding whitespace); `inf`/`nan` literals are not modelled. -/
def pyFloatOfString (s : String) : Option ℚ :=
  let cs := (pyStrip s).data
  let (neg, cs) := match cs with
    | '-' :: rest => (true, rest)
    | '+' :: rest => (false, rest)
    | _ => (false, cs)
  let (intDs, cs) := takeDigits cs
  let fracStep : Option (ℚ × List Char) :=
    match cs with
    | '.' :: cs2 =>
        let (fracDs, cs3) := takeDigits cs2
        if intDs = [] ∧ fracDs = [] then none
        else some (((digitsToNat intDs : ℤ) : ℚ) +
          (digitsToNat fracDs : ℚ) / ((10 : ℚ) ^ fracDs.length), cs3)
    | _ =>
        if intDs = [] then none else some (((digitsToNat intDs : ℤ) : ℚ), cs)
  match fracStep with
  | none => none
  | some (mant, cs4) =>
    let expStep : Option (ℚ × List Char) :=
      match cs4 with
      | 'e' :: cs5 | 'E' :: cs5 =>
          let (eneg, cs6) := match cs5 with
            | '-' :: r => (true, r)
            | '+' :: r => (false, r)
            | _ => (false, cs5)
          let (expDs, cs7) := takeDigits cs6
          if expDs = [] then none
          else
            let e := digitsToNat expDs
            some ((if eneg then mant / (10 : ℚ) ^ e else mant * (10 : ℚ) ^ e), cs7)
      | _ => some (mant, cs4)
    match expStep with
    | some (v, []) => some (if neg then -v else v)
    | _ => none

/-- `float(v)` applied to a decoded JSON value: numbers and booleans
convert, numeric strings parse, everything else raises `TypeError`
(modelled as `none`). -/
def pyFloat : PyVal → Option ℚ
  | .num q => some q
  | .bool b => some (if b then 1 else 0)
  | .str s => pyFloatOfString s
  | _ => none

/-! ## Token bucket (`llm_adapter.TokenBucket`) -/

/-- `TokenBucket` state: `rate` is per-second (`rate_per_minute / 60.0`),
`last` is the last refill timestamp. -/
structure TokenBucket : Type where
  rate : ℚ
  capacity : ℚ
  tokens : ℚ
  last : ℚ
deriving DecidableEq, Repr

/-- `TokenBucket.__init__(rate_per_minute, capacity)` at wall-clock time
`now`. -/
def TokenBucket.init (rate_per_minute capacity now : ℚ) : TokenBucket :=
  { rate := rate_per_minute / 60, capacity := capacity, tokens := capacity, last := now }

/-- `TokenBucket.consume(tokens)` called at wall-clock time `now`: refill
by the elapsed time, clamp to capacity, then admit iff enough tokens are
available.  Returns the admission flag and the updated bucket. -/
def TokenBucket.consume (b : TokenBucket) (now cost : ℚ) : Bool × TokenBucket :=
  let elapsed := now - b.last
  let tokens := min b.capacity (b.tokens + elapsed * b.rate)
  if cost ≤ tokens then
    (true, { b with last := now, tokens := tokens - cost })
  else
    (false, { b with last := now, tokens := tokens })

/-! ## Router / gateway (`llm_adapter.py`)

The two provider SDKs, the shelve cache file and the wall clock are
external collaborators; an `Env` value fixes their behaviour for a run.
`geminiReply p` / `groqReply p` is the text obtained for prompt `p` when
the SDK invocation (including response-shape extraction, which the source
guarantees never throws) succeeds, and `none` when it raises.  The router
state threads the module-level mutable pieces: the shared token bucket and
the shelve cache contents, plus two observation counters — `attempts`
counts provider invocations that actually reach an SDK call (live calls),
`successes` counts those that return text. -/

/-- `os.getenv("GEMINI_MODEL", "gemini-2.5-flash")` default. -/
def GEMINI_MODEL : String := "gemini-2.5-flash"

/-- `os.getenv("GROQ_MODEL", "llama3-70b-8192")` default. -/
def GROQ_MODEL : String := "llama3-70b-8192"

/-- `os.getenv("SENTIQ_RPM", "120")` default. -/
def DEFAULT_RPM : ℚ := 120

/-- The fixed step-4 advisory string of `call_llm_router`. -/
def overloadMsg : String :=
  "SYSTEM OVERLOAD: All language model providers are currently unavailable. Please try again later or enable simulation mode."

inductive Provider : Type where
  | gemini : Provider
  | groq : Provider
deriving DecidableEq, Repr

structure Env : Type where
  geminiKey : Bool
  genaiInstalled : Bool
  geminiReply : String → Option String
  groqInstalled : Bool
  groqKey : Bool
  groqReply : String → Option String
  cacheAvailable : Bool

def Env.replyFor (env : Env) : Provider → String → Option String
  | .gemini => env.geminiReply
  | .groq => env.groqReply

structure RouterState : Type where
  bucket : TokenBucket
  cache : List (String × String)
  attempts : ℕ
  successes : ℕ
deriving DecidableEq, Repr

/-- `simulated_response(prompt, category)`. -/
def simulated_response (prompt category : String) : String :=
  if category = "summarize" then
    "SIMULATED SUMMARY: " ++ (if 200 < prompt.length then pyTake prompt 200 ++ "." else prompt)
  else if category = "code_help" then
    "SIMULATED CODE HELP: Check variable initialization or off-by-one errors."
  else if category = "grammar" then
    "SIMULATED GRAMMAR: Suggested correction: 'Your sentence corrected.'"
  else if category = "small_talk" then
    "SIMULATED CHAT: Nice! How can I help you further?"
  else "SIMULATED ANSWER: I would search documentation or ask a clarifying question."

/-- `_cache_key(prompt, category, model)`:
`sha256(f"{model}|{category}|{prompt}").hexdigest()`. -/
def cache_key (sha : String → String) (prompt category model : String) : String :=
  sha (model ++ "|" ++ category ++ "|" ++ prompt)

/-- Shelve lookup `key in cache … cache[key]` (first binding; the update
below keeps keys unique). -/
def cacheLookup (key : String) (cache : List (String × String)) : Option String :=
  (cache.find? (fun kv => kv.1 = key)).map (·.2)

/-- Shelve update `cache[key] = result`. -/
def cacheInsert (key result : String) : List (String × String) → List (String × String)
  | [] => [(key, result)]
  | kv :: rest =>
      if kv.1 = key then (key, result) :: rest else kv :: cacheInsert key result rest

/-- One provider attempt of the router loop body, at wall-clock time
`now`.  `gemini` models `_call_gemini_sdk` (missing key, then missing SDK,
then `bucket.consume()`, then the SDK invocation patterns); `groq` models
`_invoke_groq_llama` (missing SDK, missing key, `bucket.consume()`, then
the SDK call).  The `none` outcome is the raised exception that the router
loop catches. -/
def attemptProvider (env : Env) (p : Provider) (prompt : String) (now : ℚ)
    (st : RouterState) : Option String × RouterState :=
  let checksOk : Bool := match p with
    | .gemini => env.geminiKey && env.genaiInstalled
    | .groq => env.groqInstalled && env.groqKey
  if !checksOk then (none, st)
  else
    let c := st.bucket.consume now 1
    let st1 : RouterState := { st with bucket := c.2 }
    if !c.1 then (none, st1)
    else
      let st2 : RouterState := { st1 with attempts := st1.attempts + 1 }
      match env.replyFor p prompt with
      | some t => (some t, { st2 with successes := st2.successes + 1 })
      | none => (none, st2)

/-- The router's provider loop: first success wins, failures continue. -/
def runProviders (env : Env) (prompt : String) (now : ℚ) :
    List Provider → RouterState → Option String × RouterState
  | [], st => (none, st)
  | p :: ps, st =>
      match attemptProvider env p prompt now st with
      | (some r, st') => (some r, st')
      | (none, st') => runProviders env prompt now ps st'

/-- The effective model id used for the cache key:
`model_override or (GEMINI_MODEL if prefer != "groq" else GROQ_MODEL)`;
Python's `or` treats the empty string as absent. -/
def routerModel (model_override prefer : Option String) : String :=
  let dfltModel := if prefer = some "groq" then GROQ_MODEL else GEMINI_MODEL
  match model_override with
  | some m => if m = "" then dfltModel else m
  | none => dfltModel

/-- Step 1 of the router: the cache probe (`key in cache`), a miss when
the shelve file is unavailable (non-fatal `except`). -/
def routerHit (env : Env) (st : RouterState) (key : String) : Option String :=
  if env.cacheAvailable then cacheLookup key st.cache else none

/-- The ordered provider sequence of the failover cascade. -/
def routerSeq (prefer : Option String) : List Provider :=
  if prefer = some "groq" then [.groq, .gemini] else [.gemini, .groq]

/-- Steps 3–4 of the router: cache a successful result (cache-write
failures are non-fatal) and return it, or the fixed overload advisory. -/
def routerFinish (env : Env) (key : String) :
    Option String × RouterState → String × RouterState
  | (some r, st') =>
      (r, if env.cacheAvailable then { st' with cache := cacheInsert key r st'.cache }
          else st')
  | (none, st') => (overloadMsg, st')

/-- `call_llm_router(prompt, category, use_simulation, model_override,
prefer)`. -/
def call_llm_router (sha : String → String) (env : Env)
    (prompt : String) (category : String) (use_simulation : Bool)
    (model_override : Option String) (prefer : Option String)
    (now : ℚ) (st : RouterState) : String × RouterState :=
  if use_simulation then
    (simulated_response prompt category, st)
  else
    let key := cache_key sha prompt category (routerModel model_override prefer)
    match routerHit env st key with
    | some v => (v, st)
    | none => routerFinish env key (runProviders env prompt now (routerSeq prefer) st)

/-- `call_llm(...)`: backwards-compatible wrapper with default provider
preference. -/
def call_llm (sha : String → String) (env : Env)
    (prompt : String) (category : String) (use_simulation : Bool)
    (model_override : Option String) (now : ℚ) (st : RouterState) :
    String × RouterState :=
  call_llm_router sha env prompt category use_simulation model_override none now st

/-! ## Recruiter agent (`recruiter_agent.RecruiterBot`) -/

/-- The prompt `analyze_fit` sends through the router: the strict-JSON
system preamble prepended to the rubric f-string (`\x7b\x7b`/`\x7d\x7d`
in the f-string are literal braces). -/
def analyze_fit_prompt (resume_text job_description : String) : String :=
  "SYSTEM: You must respond with STRICTLY VALID JSON. No markdown, no explanations, no extra text.\n\n" ++
  "\nYou are a strict recruiter evaluation engine.\n\nEvaluate the candidate using the rubric below:\n- Skills match: 40%\n- Relevant experience: 30%\n- Role alignment: 20%\n- Red flags / gaps: -10% penalty if applicable\n\nRules:\n- Output VALID JSON ONLY\n- score must be an integer between 0 and 100\n- pros: exactly 3 concise, constructive bullet points\n- cons: exactly 3 constructive improvement areas\n- rationale: max 2 sentences, polite and encouraging\n- Do NOT mention rejection or hiring decisions\n\nReturn JSON in this exact schema:\n\x7b\n  \"score\": <int>,\n  \"pros\": [\"...\", \"...\", \"...\"],\n  \"cons\": [\"...\", \"...\", \"...\"],\n  \"rationale\": \"...\"\n\x7d\n\nResume:\n----\n" ++
  resume_text ++
  "\n----\n\nJob Description:\n----\n" ++
  job_description ++
  "\n----\n"

/-- `re.search(r"\x7b.*\x7d", raw, re.S)`: with the DOTALL greedy pattern
a match exists iff the first `\x7b` precedes the last `\x7d`, and the
match is exactly the span between them (inclusive). -/
def brace_span (s : String) : Option String :=
  let cs := s.data
  match cs.findIdx? (fun c => c = lbrace), cs.reverse.findIdx? (fun c => c = rbrace) with
  | some i, some rj =>
      let j := cs.length - 1 - rj
      if i < j then some (String.mk ((cs.take (j + 1)).drop i)) else none
  | _, _ => none

/-- The guaranteed fallback record of `analyze_fit`. -/
def fallbackEval : PyVal :=
  .obj [("score", .num 0), ("pros", .arr []), ("cons", .arr []),
        ("rationale", .str "Evaluation could not be generated reliably.")]

/-- The two-stage parse of `analyze_fit` applied to the raw router reply:
strict `json.loads`, then `json.loads` of the brace-delimited span, then
the fixed fallback record. -/
def analyze_fit_parse (raw : String) : PyVal :=
  match json_loads raw with
  | some v => v
  | none =>
    match brace_span raw with
    | some sub =>
        match json_loads sub with
        | some v => v
        | none => fallbackEval
    | none => fallbackEval

/-- `RecruiterBot.analyze_fit(resume_text, job_description)`: dispatch the
evaluation prompt (category `recruiter_eval`, preferring Gemini, no
simulation) and run the two-stage parse on the reply. -/
def analyze_fit (sha : String → String) (env : Env)
    (resume_text job_description : String) (now : ℚ) (st : RouterState) :
    PyVal × RouterState :=
  let r := call_llm_router sha env (analyze_fit_prompt resume_text job_description)
    "recruiter_eval" false none (some "gemini") now st
  (analyze_fit_parse r.1, r.2)

/-- `RecruiterBot.recommend_action(evaluation)`.  A non-dict input takes
the guarded `hold`/0.5 branch; a dict whose `score` value is not numeric
makes the Python comparison `score >= 75` raise `TypeError` (modelled as
`Except.error`). -/
def recommend_action (evaluation : PyVal) : Except String PyVal :=
  match evaluation with
  | .obj _ =>
    match pyNumeric (pyGetD evaluation "score" (.num 0)) with
    | none => .error "TypeError: comparison of non-numeric score"
    | some score =>
      if 75 ≤ score then
        .ok (.obj [("recommendation", .str "interview"),
          ("confidence", .num (pyRound2 (min 0.95 (0.8 + (score - 75) / 50)))),
          ("reason", .str "Candidate meets core requirements with strong overall alignment.")])
      else if 60 ≤ score then
        .ok (.obj [("recommendation", .str "hold"),
          ("confidence", .num 0.6),
          ("reason", .str "Candidate shows potential but does not clearly meet all requirements.")])
      else
        .ok (.obj [("recommendation", .str "reject"),
          ("confidence", .num (pyRound2 (min 0.9 (0.6 + (60 - score) / 60)))),
          ("reason", .str "Candidate does not sufficiently meet the role requirements.")])
  | _ =>
      .ok (.obj [("recommendation", .str "hold"),
        ("confidence", .num 0.5),
        ("reason", .str "Evaluation data was incomplete or unavailable.")])

/-! ## Name extraction (`name_extractor.extract_candidate_name`) -/

structure NameResult : Type where
  name : Option String
  confidence : ℚ
deriving DecidableEq, Repr

/-- The name-extraction prompt (over the first 3000 characters of the
resume). -/
def name_prompt (resume_text : String) : String :=
  "\nExtract the candidate's full name from the resume text.\n\nRules:\n- ONLY return a name if it is explicitly mentioned\n- Do NOT guess\n- If unclear, return null\n- Confidence must reflect certainty\n\nReturn STRICT JSON only:\n\x7b\n  \"name\": string | null,\n  \"confidence\": number between 0 and 1\n\x7d\n\nResume:\n----\n" ++
  pyTake resume_text 3000 ++
  "\n----\n"

/-- The parse/validation stage of `extract_candidate_name` applied to the
raw router reply.  Every raised exception (`json.loads` failure, `.get` on
a non-dict, `float(...)` failure, `.split()` on a non-string name) is
caught by the `except` clause and yields `(None, 0)`. -/
def name_post (raw : String) : NameResult :=
  match json_loads raw with
  | none => ⟨none, 0⟩
  | some data =>
    match data with
    | .obj _ =>
      let name := pyGet data "name"
      match pyFloat (pyGetD data "confidence" (.num 0)) with
      | none => ⟨none, 0⟩
      | some confidence =>
        if pyFalsy name ∨ confidence < 0.85 then ⟨none, confidence⟩
        else
          match name with
          | .str s =>
              if 4 < (pySplit s).length then ⟨none, 0⟩
              else ⟨some (pyStrip s), confidence⟩
          | _ => ⟨none, 0⟩
    | _ => ⟨none, 0⟩

/-- `extract_candidate_name(resume_text)`: dispatch the name prompt
(category `recruiter_name`, preferring Gemini, no simulation) and
post-process the reply. -/
def extract_candidate_name (sha : String → String) (env : Env)
    (resume_text : String) (now : ℚ) (st : RouterState) :
    NameResult × RouterState :=
  let r := call_llm_router sha env (name_prompt resume_text)
    "recruiter_name" false none (some "gemini") now st
  (name_post r.1, r.2)

/-! ## Persistence (`db.py`)

`init_db()` creates the `candidates` table with columns, in order:
`id, candidate_name, resume_text, job_description, score, pros, cons,
rationale, recommendation, confidence, decision_reason, fingerprint,
created_at` (indices 0–12).  A row is modelled as a `List SQLVal` in that
column order, which is exactly what `SELECT *` hands to `get_candidate`'s
positional indexing. -/

structure DB : Type where
  rows : List (List SQLVal)
  nextId : ℤ
deriving DecidableEq, Repr

/-- A freshly initialised database (AUTOINCREMENT starts at 1). -/
def DB.empty : DB := ⟨[], 1⟩

/-- `make_fingerprint(resume_text, job_description)`:
`sha256(resume_text + job_description).hexdigest()`. -/
def make_fingerprint (sha : String → String) (resume_text job_description : String) :
    String :=
  sha (resume_text ++ job_description)

/-- `find_candidate_by_fingerprint`: `SELECT id FROM candidates WHERE
fingerprint = ?`, first match. -/
def find_candidate_by_fingerprint (fingerprint : String) (db : DB) : Option ℤ :=
  (db.rows.find? (fun r => r.getD 11 .null = .text fingerprint)).bind (fun r =>
    match r.getD 0 .null with
    | .int n => some n
    | _ => none)

/-- `insert_candidate(...)`: parameter binding (`InterfaceError` for
un-storable values), the UNIQUE constraint on `fingerprint`
(`IntegrityError`), and the append of the new row.  `.get` on a non-dict
`evaluation`/`decision` raises `AttributeError`.  `created_at` stands for
`datetime.utcnow().isoformat()`. -/
def insert_candidate (resume_text job_description : String)
    (evaluation decision : PyVal) (fingerprint : String)
    (candidate_name : Option String) (created_at : String) (db : DB) :
    Except String (ℤ × DB) :=
  match evaluation, decision with
  | .obj _, .obj _ =>
    let prosJson := jsonDumps (pyGetD evaluation "pros" (.arr []))
    let consJson := jsonDumps (pyGetD evaluation "cons" (.arr []))
    match toSQL (pyGet evaluation "score"), toSQL (pyGet evaluation "rationale"),
        toSQL (pyGet decision "recommendation"), toSQL (pyGet decision "confidence"),
        toSQL (pyGet decision "reason") with
    | some sqlScore, some sqlRationale, some sqlRec, some sqlConf, some sqlReason =>
      if db.rows.any (fun r => r.getD 11 .null = .text fingerprint) then
        .error "IntegrityError: UNIQUE constraint failed: candidates.fingerprint"
      else
        let nameVal : SQLVal := match candidate_name with
          | some s => .text s
          | none => .null
        let row : List SQLVal :=
          [.int db.nextId, nameVal, .text resume_text, .text job_description,
           sqlScore, .text prosJson, .text consJson, sqlRationale,
           sqlRec, sqlConf, sqlReason, .text fingerprint, .text created_at]
        .ok (db.nextId, ⟨db.rows ++ [row], db.nextId + 1⟩)
    | _, _, _, _, _ => .error "InterfaceError: unsupported parameter type"
  | _, _ => .error "AttributeError: evaluation has no attribute get"

/-- `safe_json_loads(value)` over a fetched column value: falsy values and
non-strings give `[]`, strings are decoded with `[]` as the failure
fallback. -/
def safe_json_loads (value : SQLVal) : PyVal :=
  if pyFalsy (toPy value) then .arr []
  else
    match value with
    | .text s => (json_loads s).getD (.arr [])
    | _ => .arr []

/-- `get_candidate(candidate_id)`: `SELECT * FROM candidates WHERE id = ?`
followed by the positional mapping written in `db.py` (note: the indices
are those of the pre-`candidate_name` schema, while `SELECT *` on a fresh
database returns `candidate_name` at index 1). -/
def get_candidate (candidate_id : ℤ) (db : DB) : Option PyVal :=
  (db.rows.find? (fun r => r.getD 0 .null = .int candidate_id)).map (fun row =>
    .obj [
      ("id", toPy (row.getD 0 .null)),
      ("resume_text", toPy (row.getD 1 .null)),
      ("job_description", toPy (row.getD 2 .null)),
      ("score", toPy (row.getD 3 .null)),
      ("pros", safe_json_loads (row.getD 4 .null)),
      ("cons", safe_json_loads (row.getD 5 .null)),
      ("rationale", toPy (row.getD 6 .null)),
      ("recommendation", toPy (row.getD 7 .null)),
      ("confidence", toPy (row.getD 8 .null)),
      ("decision_reason", toPy (row.getD 9 .null)),
      ("created_at", toPy (row.getD 10 .null))
    ])

/-! ## Screening service (`screening_service.ScreeningService`) -/

/-- Modelled from the spec: `validate_text_field` lives in `validators.py`,
which is imported by `screening_service.py` but is not among the sources.
The spec says "validate both texts are non-empty after trimming; reject
(do not enter the pipeline) otherwise", with `ValidationError` the
taxonomy entry for empty/invalid input text; we model it as raising for
whitespace-only text and returning the text otherwise. -/
def validate_text_field (value field_name : String) : Except String String :=
  if pyStrip value = "" then
    .error ("ValidationError: " ++ field_name ++ " must not be empty")
  else .ok value

/-- One submitted file: its name and the outcome of the collaborator call
`parse_text_file(file_path)` (extracted text, or the raised exception's
message). -/
structure FileInput : Type where
  name : String
  parsed : Except String String

/-- The non-duplicate tail of the per-file loop body: name extraction,
evaluation, decision, insertion, and the `status="new"` result.  An
`Except.error` is an exception propagating out of `screen_files`. -/
def screen_new (sha : String → String) (env : Env) (created_at : String)
    (job_description : String) (f : FileInput) (resume_text fingerprint : String)
    (now : ℚ) (st : RouterState) (db : DB) :
    Except String (PyVal × RouterState × DB) :=
  let nameRes := extract_candidate_name sha env resume_text now st
  let candidate_name := nameRes.1.name
  let evalRes := analyze_fit sha env resume_text job_description now nameRes.2
  let evaluation := evalRes.1
  match recommend_action evaluation with
  | .error e => .error e
  | .ok decision =>
    match insert_candidate resume_text job_description evaluation decision
        fingerprint candidate_name created_at db with
    | .error e => .error e
    | .ok (candidate_id, db') =>
        .ok (.obj [
          ("file", .str f.name),
          ("candidate_id", .num candidate_id),
          ("candidate_name", match candidate_name with
            | some s => .str s
            | none => .null),
          ("status", .str "new"),
          ("score", pyGet evaluation "score"),
          ("recommendation", pyGet decision "recommendation")], evalRes.2, db')

/-- The body of the `for file_path in files` loop for one file. -/
def screen_one (sha : String → String) (env : Env) (created_at : String)
    (job_description : String) (f : FileInput) (now : ℚ)
    (st : RouterState) (db : DB) :
    Except String (PyVal × RouterState × DB) :=
  match f.parsed.bind (fun t => validate_text_field t "resume_text") with
  | .error e =>
      .ok (.obj [("file", .str f.name), ("status", .str "invalid"),
        ("error", .str e)], st, db)
  | .ok resume_text =>
    let fingerprint := make_fingerprint sha resume_text job_description
    match find_candidate_by_fingerprint fingerprint db with
    | some existing_id =>
      if existing_id ≠ 0 then
        match get_candidate existing_id db with
        | some candidate =>
            .ok (.obj [
              ("file", .str f.name),
              ("candidate_id", .num existing_id),
              ("candidate_name", pyGet candidate "candidate_name"),
              ("status", .str "reused"),
              ("score", pyGet candidate "score"),
              ("recommendation", pyGet candidate "recommendation")], st, db)
        | none => .error "AttributeError: NoneType has no attribute get"
      else
        screen_new sha env created_at job_description f resume_text fingerprint now st db
    | none =>
        screen_new sha env created_at job_description f resume_text fingerprint now st db

/-- The loop over all files, threading the router state and database. -/
def screen_loop (sha : String → String) (env : Env) (created_at : String)
    (job_description : String) :
    List FileInput → ℚ → RouterState → DB →
      Except String (List PyVal × RouterState × DB)
  | [], _, st, db => .ok ([], st, db)
  | f :: fs, now, st, db =>
    match screen_one sha env created_at job_description f now st db with
    | .error e => .error e
    | .ok (r, st', db') =>
        (screen_loop sha env created_at job_description fs now st' db').map
          (fun out => (r :: out.1, out.2))

/-- `ScreeningService.screen_files(files, job_description)`.  All bucket
refills in the run happen at the single wall-clock instant `now`; the
claims never depend on time advancing during a batch. -/
def screen_files (sha : String → String) (env : Env) (created_at : String)
    (files : List FileInput) (job_description : String) (now : ℚ)
    (st : RouterState) (db : DB) :
    Except String (List PyVal × RouterState × DB) :=
  match validate_text_field job_description "job_description" with
  | .error e => .error e
  | .ok job => screen_loop sha env created_at job files now st db

deriving instance DecidableEq for Except

/-! ## Claim C5: token-bucket invariant and admission behaviour -/

/-- C5.  Under monotone wall-clock time (`b.last ≤ now`) every
`TokenBucket.consume` call preserves `0 ≤ tokens ≤ capacity`: it first
advances the tokens by `elapsed × rate` clamped to the capacity, then
admits (returns `true` and subtracts the cost) iff the refilled tokens
cover the cost, and otherwise returns `false` without blocking — in
particular a cost exceeding the refilled tokens is refused — and after
`capacity/rate` seconds with no consumption a full-capacity consume
succeeds. -/
theorem tokenBucket_consume_spec (b : TokenBucket) (now cost : ℚ)
    (h0 : 0 ≤ b.tokens) (h1 : b.tokens ≤ b.capacity) (h2 : b.last ≤ now)
    (h3 : 0 ≤ b.rate) (h4 : 0 ≤ cost) :
    (0 ≤ (b.consume now cost).2.tokens ∧
      (b.consume now cost).2.tokens ≤ (b.consume now cost).2.capacity) ∧
    ((b.consume now cost).1 = true ↔
      cost ≤ min b.capacity (b.tokens + (now - b.last) * b.rate)) ∧
    ((b.consume now cost).1 = true →
      (b.consume now cost).2.tokens =
        min b.capacity (b.tokens + (now - b.last) * b.rate) - cost) ∧
    ((b.consume now cost).1 = false →
      (b.consume now cost).2.tokens =
        min b.capacity (b.tokens + (now - b.last) * b.rate)) ∧
    (0 < b.rate → (b.consume (b.last + b.capacity / b.rate) b.capacity).1 = true) := by
  have hcap : 0 ≤ b.capacity := h0.trans h1
  have helapsed : 0 ≤ (now - b.last) * b.rate :=
    mul_nonneg (sub_nonneg.mpr h2) h3
  set r := min b.capacity (b.tokens + (now - b.last) * b.rate) with hrdef
  have hr0 : 0 ≤ r := le_min hcap (add_nonneg h0 helapsed)
  have hrcap : r ≤ b.capacity := min_le_left _ _
  have hlast : ∀ hrate : 0 < b.rate,
      (b.consume (b.last + b.capacity / b.rate) b.capacity).1 = true := by
    intro hrate
    simp only [TokenBucket.consume]
    have he : b.last + b.capacity / b.rate - b.last = b.capacity / b.rate := by ring
    rw [he, div_mul_cancel₀ _ (ne_of_gt hrate),
      min_eq_left (le_add_of_nonneg_left h0), if_pos le_rfl]
  by_cases hc : cost ≤ r
  · have hstep : b.consume now cost =
        (true, { b with last := now, tokens := r - cost }) := by
      simp only [TokenBucket.consume, ← hrdef]
      rw [if_pos hc]
    rw [hstep]
    refine ⟨⟨by simpa using hc, ?_⟩, by simpa using hc, fun _ => rfl,
      fun hfalse => by simp at hfalse, hlast⟩
    simpa using (sub_le_self r h4).trans hrcap
  · have hstep : b.consume now cost =
        (false, { b with last := now, tokens := r }) := by
      simp only [TokenBucket.consume, ← hrdef]
      rw [if_neg hc]
    rw [hstep]
    exact ⟨⟨hr0, hrcap⟩, by simpa using hc, fun htrue => by simp at htrue,
      fun _ => rfl, hlast⟩

unseal Rat.add Rat.mul Rat.inv Rat.sub Rat.ofScientific in
/-- Witness for C5 at a concrete bucket (rate 2/s, capacity 60, 30 tokens
refilled over 5 seconds, cost 1). -/
theorem tokenBucket_consume_spec_w :
    (0 ≤ (30:ℚ) ∧ (30:ℚ) ≤ 60 ∧ (0:ℚ) ≤ 5 ∧ (0:ℚ) ≤ 2 ∧ (0:ℚ) ≤ 1) ∧
    ((0 ≤ ((⟨2, 60, 30, 0⟩ : TokenBucket).consume 5 1).2.tokens ∧
      ((⟨2, 60, 30, 0⟩ : TokenBucket).consume 5 1).2.tokens ≤
        ((⟨2, 60, 30, 0⟩ : TokenBucket).consume 5 1).2.capacity) ∧
    (((⟨2, 60, 30, 0⟩ : TokenBucket).consume 5 1).1 = true ↔
      1 ≤ min (60:ℚ) (30 + (5 - 0) * 2)) ∧
    (((⟨2, 60, 30, 0⟩ : TokenBucket).consume 5 1).1 = true →
      ((⟨2, 60, 30, 0⟩ : TokenBucket).consume 5 1).2.tokens =
        min (60:ℚ) (30 + (5 - 0) * 2) - 1) ∧
    (((⟨2, 60, 30, 0⟩ : TokenBucket).consume 5 1).1 = false →
      ((⟨2, 60, 30, 0⟩ : TokenBucket).consume 5 1).2.tokens =
        min (60:ℚ) (30 + (5 - 0) * 2)) ∧
    ((0:ℚ) < 2 → ((⟨2, 60, 30, 0⟩ : TokenBucket).consume (0 + 60 / 2) 60).1 = true)) :=
  ⟨by refine ⟨by decide, by decide, by decide, by decide, by decide⟩,
    tokenBucket_consume_spec ⟨2, 60, 30, 0⟩ 5 1 (by decide) (by decide)
      (by decide) (by decide) (by decide)⟩

/-! ## Claim C3: decision thresholds of `recommend_action` -/

unseal Rat.add Rat.mul Rat.inv Rat.sub Rat.ofScientific in
/-- C3.  `recommend_action` is a pure function of the evaluation's
numeric score: `score ≥ 75` yields `interview` with confidence
`min(0.95, 0.8 + (score−75)/50)`, `60 ≤ score < 75` yields `hold` with
confidence 0.6, `score < 60` yields `reject` with confidence
`min(0.9, 0.6 + (60−score)/60)`, confidences rounded to two decimals;
at the boundaries `75 ↦ interview/0.8 exactly`, `74 ↦ hold`,
`60 ↦ hold/0.6`, `59 ↦ reject`; and a non-dict input yields `hold` with
confidence 0.5 without raising. -/
theorem recommend_action_spec :
    (∀ (kvs : List (String × PyVal)) (score : ℚ),
      pyNumeric (pyGetD (.obj kvs) "score" (.num 0)) = some score →
        (75 ≤ score →
          recommend_action (.obj kvs) = .ok (.obj [
            ("recommendation", .str "interview"),
            ("confidence", .num (pyRound2 (min 0.95 (0.8 + (score - 75) / 50)))),
            ("reason", .str "Candidate meets core requirements with strong overall alignment.")])) ∧
        (60 ≤ score → score < 75 →
          recommend_action (.obj kvs) = .ok (.obj [
            ("recommendation", .str "hold"),
            ("confidence", .num 0.6),
            ("reason", .str "Candidate shows potential but does not clearly meet all requirements.")])) ∧
        (score < 60 →
          recommend_action (.obj kvs) = .ok (.obj [
            ("recommendation", .str "reject"),
            ("confidence", .num (pyRound2 (min 0.9 (0.6 + (60 - score) / 60)))),
            ("reason", .str "Candidate does not sufficiently meet the role requirements.")]))) ∧
    recommend_action (.obj [("score", .num 75)]) = .ok (.obj [
      ("recommendation", .str "interview"),
      ("confidence", .num 0.8),
      ("reason", .str "Candidate meets core requirements with strong overall alignment.")]) ∧
    (recommend_action (.obj [("score", .num 74)])).map (fun d => pyGet d "recommendation")
      = .ok (.str "hold") ∧
    recommend_action (.obj [("score", .num 60)]) = .ok (.obj [
      ("recommendation", .str "hold"),
      ("confidence", .num 0.6),
      ("reason", .str "Candidate shows potential but does not clearly meet all requirements.")]) ∧
    (recommend_action (.obj [("score", .num 59)])).map (fun d => pyGet d "recommendation")
      = .ok (.str "reject") ∧
    (∀ v : PyVal, v.isObj = false → recommend_action v = .ok (.obj [
      ("recommendation", .str "hold"),
      ("confidence", .num 0.5),
      ("reason", .str "Evaluation data was incomplete or unavailable.")])) := by
  refine ⟨?_, by decide, by decide, by decide, by decide, ?_⟩
  · intro kvs score h
    refine ⟨fun h75 => ?_, fun h60 h75 => ?_, fun h60 => ?_⟩
    · simp only [recommend_action, h, if_pos h75]
    · simp only [recommend_action, h, if_neg (not_le.mpr h75), if_pos h60]
    · have h75n : ¬ (75:ℚ) ≤ score := not_le.mpr (lt_of_lt_of_le h60 (by norm_num))
      have h60n : ¬ (60:ℚ) ≤ score := not_le.mpr h60
      simp only [recommend_action, h, if_neg h75n, if_neg h60n]
  · intro v hv
    cases v <;> simp_all [recommend_action, PyVal.isObj]

unseal Rat.add Rat.mul Rat.inv Rat.sub Rat.ofScientific in
/-- Witness for C3 at score 80 (interview branch). -/
theorem recommend_action_spec_w :
    pyNumeric (pyGetD (.obj [("score", PyVal.num 80)]) "score" (.num 0)) = some 80 ∧
    (75:ℚ) ≤ 80 ∧
    recommend_action (.obj [("score", .num 80)]) = .ok (.obj [
      ("recommendation", .str "interview"),
      ("confidence", .num (pyRound2 (min 0.95 (0.8 + ((80:ℚ) - 75) / 50)))),
      ("reason", .str "Candidate meets core requirements with strong overall alignment.")]) :=
  ⟨by decide, by decide,
    (recommend_action_spec.1 [("score", .num 80)] 80 (by decide)).1 (by decide)⟩

/-! ## Router lemmas shared by the gateway claims -/

theorem attemptProvider_fst_of_reply_none (env : Env) (p : Provider)
    (prompt : String) (now : ℚ) (st : RouterState)
    (h : env.replyFor p prompt = none) :
    (attemptProvider env p prompt now st).1 = none := by
  simp only [attemptProvider]
  split
  · rfl
  · split
    · rfl
    · simp [h]

theorem attemptProvider_reply_of_fst_some (env : Env) (p : Provider)
    (prompt : String) (now : ℚ) (st : RouterState) (t : String)
    (h : (attemptProvider env p prompt now st).1 = some t) :
    env.replyFor p prompt = some t := by
  by_cases hr : env.replyFor p prompt = none
  · rw [attemptProvider_fst_of_reply_none env p prompt now st hr] at h
    exact absurd h (by simp)
  · obtain ⟨u, hu⟩ := Option.ne_none_iff_exists'.mp hr
    simp only [attemptProvider] at h
    rw [hu]
    split at h
    · exact absurd h (by simp)
    · split at h
      · exact absurd h (by simp)
      · rw [hu] at h
        simpa using h

theorem attemptProvider_cache_eq (env : Env) (p : Provider)
    (prompt : String) (now : ℚ) (st : RouterState) :
    (attemptProvider env p prompt now st).2.cache = st.cache := by
  simp only [attemptProvider]
  split
  · rfl
  · split
    · rfl
    · split <;> rfl

theorem attemptProvider_successes_le (env : Env) (p : Provider)
    (prompt : String) (now : ℚ) (st : RouterState) :
    (attemptProvider env p prompt now st).2.successes ≤ st.successes + 1 := by
  simp only [attemptProvider]
  split
  · exact Nat.le_succ _
  · split
    · exact Nat.le_succ _
    · split <;> simp

theorem runProviders_fst_of_all_none (env : Env) (prompt : String) (now : ℚ)
    (ps : List Provider) (st : RouterState)
    (h : ∀ p ∈ ps, env.replyFor p prompt = none) :
    (runProviders env prompt now ps st).1 = none := by
  induction ps generalizing st with
  | nil => rfl
  | cons p ps ih =>
      simp only [runProviders]
      cases hA : attemptProvider env p prompt now st with
      | mk fst snd =>
          have hfst : fst = none := by
            have := attemptProvider_fst_of_reply_none env p prompt now st
              (h p (List.mem_cons_self p ps))
            rwa [hA] at this
          subst hfst
          exact ih snd (fun q hq => h q (List.mem_cons_of_mem p hq))

theorem runProviders_cache_eq (env : Env) (prompt : String) (now : ℚ)
    (ps : List Provider) (st : RouterState) :
    (runProviders env prompt now ps st).2.cache = st.cache := by
  induction ps generalizing st with
  | nil => rfl
  | cons p ps ih =>
      simp only [runProviders]
      cases hA : attemptProvider env p prompt now st with
      | mk fst snd =>
          have hsnd : snd.cache = st.cache := by
            have := attemptProvider_cache_eq env p prompt now st
            rwa [hA] at this
          cases fst with
          | none => rw [ih snd, hsnd]
          | some r => exact hsnd

theorem runProviders_reply_of_fst_some (env : Env) (prompt : String) (now : ℚ)
    (ps : List Provider) (st : RouterState) (t : String)
    (h : (runProviders env prompt now ps st).1 = some t) :
    ∃ p ∈ ps, env.replyFor p prompt = some t := by
  induction ps generalizing st with
  | nil => exact absurd h (by simp [runProviders])
  | cons p ps ih =>
      simp only [runProviders] at h
      cases hA : attemptProvider env p prompt now st with
      | mk fst snd =>
          rw [hA] at h
          cases fst with
          | some r =>
              refine ⟨p, List.mem_cons_self p ps, ?_⟩
              have : r = t := by simpa using h
              subst this
              exact attemptProvider_reply_of_fst_some env p prompt now st r
                (by rw [hA])
          | none =>
              obtain ⟨q, hq, hr⟩ := ih snd h
              exact ⟨q, List.mem_cons_of_mem p hq, hr⟩

/-! ## Claim C2: the router never raises and degrades to the advisory -/

/-- C2.  In non-simulation mode, for every prompt, category, model
override and provider preference: (totality of the embedding models
"never raises") when both providers' SDK invocations fail
(`reply = none`) and the cache does not hit, the router returns exactly
the fixed "all providers unavailable" advisory string; and a failing
provider is not escalated: with Gemini failing (no credentials) and Groq
succeeding, the router returns Groq's text. -/
theorem call_llm_router_never_raises (sha : String → String) (env : Env)
    (prompt category : String) (mo prefer : Option String) (now : ℚ)
    (st : RouterState)
    (hmiss : routerHit env st (cache_key sha prompt category (routerModel mo prefer)) = none) :
    (env.geminiReply prompt = none → env.groqReply prompt = none →
      (call_llm_router sha env prompt category false mo prefer now st).1 = overloadMsg) ∧
    (∀ t : String, env.geminiKey = false → env.groqInstalled = true →
      env.groqKey = true → env.groqReply prompt = some t →
      (st.bucket.consume now 1).1 = true → prefer ≠ some "groq" →
      (call_llm_router sha env prompt category false mo prefer now st).1 = t) := by
  constructor
  · intro hg hq
    have hall : ∀ p ∈ routerSeq prefer, env.replyFor p prompt = none := by
      intro p _
      cases p
      · exact hg
      · exact hq
    have hrun := runProviders_fst_of_all_none env prompt now (routerSeq prefer) st hall
    simp only [call_llm_router, if_neg (by simp : ¬ (false = true)), hmiss]
    cases hR : runProviders env prompt now (routerSeq prefer) st with
    | mk fst snd =>
        rw [hR] at hrun
        subst hrun
        rfl
  · intro t hgk hqi hqk hqr hbucket hpref
    have hseq : routerSeq prefer = [.gemini, .groq] := by
      simp [routerSeq, hpref]
    have hgemini : attemptProvider env .gemini prompt now st = (none, st) := by
      unfold attemptProvider
      simp [Env.replyFor, hgk]
    have hgroq : (attemptProvider env .groq prompt now st).1 = some t := by
      unfold attemptProvider
      simp only [Env.replyFor, hqi, hqk, Bool.and_self, Bool.not_true,
        Bool.false_eq_true, if_false]
      cases hC : st.bucket.consume now 1 with
      | mk ok b' =>
          rw [hC] at hbucket
          simp only at hbucket
          subst hbucket
          simp [hqr]
    simp only [call_llm_router, if_neg (by simp : ¬ (false = true)), hmiss, hseq,
      runProviders, hgemini]
    cases hG : attemptProvider env .groq prompt now st with
    | mk fst snd =>
        rw [hG] at hgroq
        simp only at hgroq
        subst hgroq
        rfl

/-- Witness for C2: both hypothesis branches exercised at a concrete
environment (empty cache; no credentials at all for the first conjunct). -/
theorem call_llm_router_never_raises_w :
    (routerHit
        ⟨false, false, fun _ => none, false, false, fun _ => none, true⟩
        ⟨⟨2, 60, 60, 0⟩, [], 0, 0⟩
        (cache_key (fun s => s) "p" "general" (routerModel none none)) = none) ∧
    ((fun _ : String => (none : Option String)) "p" = none) ∧
    (call_llm_router (fun s => s)
        ⟨false, false, fun _ => none, false, false, fun _ => none, true⟩
        "p" "general" false none none 0 ⟨⟨2, 60, 60, 0⟩, [], 0, 0⟩).1 = overloadMsg := by
  refine ⟨by decide, rfl, ?_⟩
  exact (call_llm_router_never_raises (fun s => s)
      ⟨false, false, fun _ => none, false, false, fun _ => none, true⟩
      "p" "general" none none 0 ⟨⟨2, 60, 60, 0⟩, [], 0, 0⟩ (by decide)).1 rfl rfl

/-! ## Claim C8: simulation mode is effect-free -/

/-- Iterated simulated dispatches (prompt/category pairs with arbitrary
override and preference), threading the router state. -/
def simAll (sha : String → String) (env : Env) :
    List (String × String × Option String × Option String) → ℚ → RouterState →
      RouterState
  | [], _, st => st
  | (p, c, mo, pref) :: rest, now, st =>
      simAll sha env rest now (call_llm_router sha env p c true mo pref now st).2

/-- C8.  With `use_simulation=True` the router returns the
deterministic category-specific canned response and leaves the state —
cache, token bucket, provider counters — untouched; `summarize` responses
are derived from the prompt and truncated at 200 characters, other
categories are prompt-independent placeholders; consequently any number
of simulated calls leaves the bucket's token count unchanged. -/
theorem call_llm_router_simulation_spec :
    (∀ (sha : String → String) (env : Env) (prompt category : String)
        (mo prefer : Option String) (now : ℚ) (st : RouterState),
      call_llm_router sha env prompt category true mo prefer now st =
        (simulated_response prompt category, st)) ∧
    (∀ prompt : String, simulated_response prompt "summarize" =
      "SIMULATED SUMMARY: " ++
        (if 200 < prompt.length then pyTake prompt 200 ++ "." else prompt)) ∧
    (∀ (p1 p2 category : String), category ≠ "summarize" →
      simulated_response p1 category = simulated_response p2 category) ∧
    (∀ (sha : String → String) (env : Env)
        (calls : List (String × String × Option String × Option String))
        (now : ℚ) (st : RouterState),
      simAll sha env calls now st = st) := by
  have hone : ∀ (sha : String → String) (env : Env) (prompt category : String)
      (mo prefer : Option String) (now : ℚ) (st : RouterState),
      call_llm_router sha env prompt category true mo prefer now st =
        (simulated_response prompt category, st) := by
    intro sha env prompt category mo prefer now st
    simp [call_llm_router]
  refine ⟨hone, fun prompt => by simp [simulated_response], ?_, ?_⟩
  · intro p1 p2 category h
    simp only [simulated_response, if_neg h]
  · intro sha env calls now
    induction calls with
    | nil => intro st; rfl
    | cons c rest ih =>
        intro st
        obtain ⟨p, cat, mo, pref⟩ := c
        simp only [simAll, hone]
        exact ih st

/-- Witness for C8: a concrete simulated call (category outside the
special list) changes nothing, and three stacked simulated calls leave
the initial state intact. -/
theorem call_llm_router_simulation_spec_w :
    ("general" ≠ "summarize") ∧
    (simulated_response "a" "general" = simulated_response "b" "general") ∧
    (call_llm_router (fun s => s)
        ⟨true, true, fun _ => some "x", true, true, fun _ => some "y", true⟩
        "hello" "summarize" true none none 3 ⟨⟨2, 60, 60, 0⟩, [("k", "v")], 4, 2⟩ =
      (simulated_response "hello" "summarize", ⟨⟨2, 60, 60, 0⟩, [("k", "v")], 4, 2⟩)) ∧
    (simAll (fun s => s)
        ⟨true, true, fun _ => some "x", true, true, fun _ => some "y", true⟩
        [("p1", "summarize", none, none), ("p2", "grammar", some "m", some "groq"),
          ("p3", "code_help", none, none)] 3 ⟨⟨2, 60, 60, 0⟩, [("k", "v")], 4, 2⟩ =
      ⟨⟨2, 60, 60, 0⟩, [("k", "v")], 4, 2⟩) :=
  ⟨by decide,
    call_llm_router_simulation_spec.2.2.1 "a" "b" "general" (by decide),
    call_llm_router_simulation_spec.1 (fun s => s) _ "hello" "summarize" none none 3 _,
    call_llm_router_simulation_spec.2.2.2 (fun s => s) _ _ 3 _⟩

/-! ## Claim C6: two-stage parse with guaranteed fallback -/

/-- C6.  `analyze_fit` post-processes every raw gateway reply with the
two-stage parse and never lets an exception escape: a strict JSON parse
is returned as-is; otherwise the first brace-delimited substring is
re-parsed; on total failure the fixed fallback record (score 0, empty
pros/cons, fixed rationale) is returned.  The final conjunct ties
`analyze_fit` itself to this post-processing of its router reply. -/
theorem analyze_fit_parse_spec :
    (∀ (raw : String) (v : PyVal), json_loads raw = some v →
      analyze_fit_parse raw = v) ∧
    (∀ (raw sub : String) (v : PyVal), json_loads raw = none →
      brace_span raw = some sub → json_loads sub = some v →
      analyze_fit_parse raw = v) ∧
    (∀ raw : String, json_loads raw = none → brace_span raw = none →
      analyze_fit_parse raw = fallbackEval) ∧
    (∀ (raw sub : String), json_loads raw = none → brace_span raw = some sub →
      json_loads sub = none → analyze_fit_parse raw = fallbackEval) ∧
    (pyGet fallbackEval "score" = .num 0 ∧ pyGet fallbackEval "pros" = .arr [] ∧
      pyGet fallbackEval "cons" = .arr [] ∧
      pyGet fallbackEval "rationale" =
        .str "Evaluation could not be generated reliably.") ∧
    (∀ (sha : String → String) (env : Env) (resume job : String) (now : ℚ)
        (st : RouterState),
      analyze_fit sha env resume job now st =
        (analyze_fit_parse (call_llm_router sha env (analyze_fit_prompt resume job)
            "recruiter_eval" false none (some "gemini") now st).1,
          (call_llm_router sha env (analyze_fit_prompt resume job)
            "recruiter_eval" false none (some "gemini") now st).2)) := by
  refine ⟨?_, ?_, ?_, ?_, by refine ⟨by decide, by decide, by decide, by decide⟩,
    fun sha env resume job now st => rfl⟩
  · intro raw v h
    simp [analyze_fit_parse, h]
  · intro raw sub v h hb hs
    simp [analyze_fit_parse, h, hb, hs]
  · intro raw h hb
    simp [analyze_fit_parse, h, hb]
  · intro raw sub h hb hs
    simp [analyze_fit_parse, h, hb, hs]

unseal Rat.add Rat.mul Rat.inv Rat.sub Rat.ofScientific in
set_option maxRecDepth 100000 in
/-- Witness for C6: the overload advisory (the reply under total provider
outage) has no JSON and no brace span, so it maps to the fallback record;
and a reply with JSON wrapped in prose is recovered through the brace
span. -/
theorem analyze_fit_parse_spec_w :
    (json_loads overloadMsg = none ∧ brace_span overloadMsg = none ∧
      analyze_fit_parse overloadMsg = fallbackEval) ∧
    (json_loads "reply: \x7b\"score\": 40\x7d done" = none ∧
      brace_span "reply: \x7b\"score\": 40\x7d done" = some "\x7b\"score\": 40\x7d" ∧
      json_loads "\x7b\"score\": 40\x7d" = some (.obj [("score", .num 40)]) ∧
      analyze_fit_parse "reply: \x7b\"score\": 40\x7d done" =
        .obj [("score", .num 40)]) :=
  ⟨⟨by decide, by decide,
      analyze_fit_parse_spec.2.2.1 overloadMsg (by decide) (by decide)⟩,
    ⟨by decide, by decide, by decide,
      analyze_fit_parse_spec.2.1 "reply: \x7b\"score\": 40\x7d done"
        "\x7b\"score\": 40\x7d" (.obj [("score", .num 40)])
        (by decide) (by decide) (by decide)⟩⟩

/-! ## Claim C7: name acceptance conditions (corrected) -/

unseal Rat.add Rat.mul Rat.inv Rat.sub Rat.ofScientific in
set_option maxRecDepth 100000 in
/-- Counterexample to C7 as stated: for the reply
`\x7b"name": "John Doe", "confidence": 0.5\x7d` the confidence threshold is
violated, and `extract_candidate_name` returns `name=None` together with
the **parsed** confidence 0.5 — not confidence 0 as the claim requires
for every violation. -/
theorem extract_candidate_name_c7_counterexample :
    (extract_candidate_name (fun s => s)
        ⟨true, true,
          fun _ => some "\x7b\"name\": \"John Doe\", \"confidence\": 0.5\x7d",
          false, false, fun _ => none, false⟩
        "R" 0 ⟨⟨2, 60, 60, 0⟩, [], 0, 0⟩).1 = ⟨none, 1/2⟩ ∧
    ((1 : ℚ)/2 ≠ 0) := by
  constructor
  · decide
  · decide

/-- C7 (amended).  `extract_candidate_name` accepts a name only if the
parsed confidence is ≥ 0.85 and the name has at most 4 whitespace
tokens; a JSON parse failure, a non-dict reply, an unparseable
confidence, a non-string name, or an over-long name yields `(None, 0)`;
but a missing/empty name or a confidence below 0.85 yields `None`
together with the **parsed** confidence (not 0); the function never
raises. -/
theorem extract_candidate_name_spec :
    (∀ (sha : String → String) (env : Env) (resume : String) (now : ℚ)
        (st : RouterState),
      extract_candidate_name sha env resume now st =
        (name_post (call_llm_router sha env (name_prompt resume)
            "recruiter_name" false none (some "gemini") now st).1,
          (call_llm_router sha env (name_prompt resume)
            "recruiter_name" false none (some "gemini") now st).2)) ∧
    (∀ raw : String, json_loads raw = none → name_post raw = ⟨none, 0⟩) ∧
    (∀ (raw : String) (v : PyVal), json_loads raw = some v → v.isObj = false →
      name_post raw = ⟨none, 0⟩) ∧
    (∀ (raw : String) (nm : String) (conf : ℚ),
      name_post raw = ⟨some nm, conf⟩ →
      0.85 ≤ conf ∧ ∃ (data : PyVal) (s : String), json_loads raw = some data ∧
        pyGet data "name" = .str s ∧ nm = pyStrip s ∧
        (pySplit s).length ≤ 4 ∧
        pyFloat (pyGetD data "confidence" (.num 0)) = some conf) ∧
    (∀ (raw : String) (data : PyVal) (conf : ℚ), json_loads raw = some data →
      data.isObj = true → pyFloat (pyGetD data "confidence" (.num 0)) = some conf →
      (pyFalsy (pyGet data "name") = true ∨ conf < 0.85) →
      name_post raw = ⟨none, conf⟩) ∧
    (∀ (raw : String) (data : PyVal) (s : String) (conf : ℚ),
      json_loads raw = some data → data.isObj = true →
      pyGet data "name" = .str s →
      pyFloat (pyGetD data "confidence" (.num 0)) = some conf →
      pyFalsy (.str s) = false → 0.85 ≤ conf → 4 < (pySplit s).length →
      name_post raw = ⟨none, 0⟩) := by
  refine ⟨fun sha env resume now st => rfl, ?_, ?_, ?_, ?_, ?_⟩
  · intro raw h
    simp [name_post, h]
  · intro raw v h hv
    cases v <;> simp_all [name_post, PyVal.isObj]
  · intro raw nm conf h
    cases hL : json_loads raw with
    | none => rw [name_post, hL] at h; exact absurd h (by simp)
    | some data =>
      simp only [name_post, hL] at h
      cases data with
      | obj kvs =>
        cases hF : pyFloat (pyGetD (.obj kvs) "confidence" (.num 0)) with
        | none => rw [hF] at h; exact absurd h (by simp)
        | some c =>
          rw [hF] at h
          simp only at h
          by_cases hc : pyFalsy (pyGet (.obj kvs) "name") = true ∨ c < 0.85
          · rw [if_pos hc] at h; exact absurd h (by simp)
          · rw [if_neg hc] at h
            push_neg at hc
            cases hN : pyGet (.obj kvs) "name" with
            | str s =>
              rw [hN] at h
              simp only at h
              by_cases hl : 4 < (pySplit s).length
              · rw [if_pos hl] at h; exact absurd h (by simp)
              · rw [if_neg hl] at h
                have h1 : some (pyStrip s) = some nm := congrArg NameResult.name h
                have h2 : c = conf := congrArg NameResult.confidence h
                constructor
                · rw [← h2]; exact hc.2
                · exact ⟨.obj kvs, s, rfl, hN, (Option.some_inj.mp h1).symm,
                    not_lt.mp hl, by rw [← h2]; exact hF⟩
            | null => rw [hN] at h; exact absurd h (by simp)
            | bool b => rw [hN] at h; exact absurd h (by simp)
            | num q => rw [hN] at h; exact absurd h (by simp)
            | arr xs => rw [hN] at h; exact absurd h (by simp)
            | obj kvs2 => rw [hN] at h; exact absurd h (by simp)
      | null => exact absurd h (by simp)
      | bool b => exact absurd h (by simp)
      | num q => exact absurd h (by simp)
      | str s => exact absurd h (by simp)
      | arr xs => exact absurd h (by simp)
  · intro raw data conf h hobj hconf hcond
    cases data with
    | obj kvs =>
        simp only [name_post, h, hconf]
        rw [if_pos hcond]
    | null => simp [PyVal.isObj] at hobj
    | bool b => simp [PyVal.isObj] at hobj
    | num q => simp [PyVal.isObj] at hobj
    | str s => simp [PyVal.isObj] at hobj
    | arr xs => simp [PyVal.isObj] at hobj
  · intro raw data s conf h hobj hname hconf hfalsy hge hlen
    cases data with
    | obj kvs =>
        simp only [name_post, h, hconf]
        rw [if_neg ?_]
        · rw [hname]
          simp only
          rw [if_pos hlen]
        · push_neg
          refine ⟨?_, hge⟩
          rw [hname, hfalsy]
          exact Bool.false_ne_true
    | null => simp [PyVal.isObj] at hobj
    | bool b => simp [PyVal.isObj] at hobj
    | num q => simp [PyVal.isObj] at hobj
    | str s => simp [PyVal.isObj] at hobj
    | arr xs => simp [PyVal.isObj] at hobj

unseal Rat.add Rat.mul Rat.inv Rat.sub Rat.ofScientific in
set_option maxRecDepth 100000 in
/-- Witness for C7 (amended): the low-confidence branch at the
counterexample reply, via the amended theorem. -/
theorem extract_candidate_name_spec_w :
    json_loads "\x7b\"name\": \"John Doe\", \"confidence\": 0.5\x7d" =
      some (.obj [("name", .str "John Doe"), ("confidence", .num (1/2))]) ∧
    (PyVal.obj [("name", .str "John Doe"), ("confidence", .num (1/2))]).isObj = true ∧
    pyFloat (pyGetD (.obj [("name", .str "John Doe"), ("confidence", .num (1/2))])
      "confidence" (.num 0)) = some (1/2) ∧
    ((1:ℚ)/2 < 0.85) ∧
    name_post "\x7b\"name\": \"John Doe\", \"confidence\": 0.5\x7d" = ⟨none, 1/2⟩ :=
  ⟨by decide, by decide, by decide, by decide,
    extract_candidate_name_spec.2.2.2.2.1
      "\x7b\"name\": \"John Doe\", \"confidence\": 0.5\x7d"
      (.obj [("name", .str "John Doe"), ("confidence", .num (1/2))]) (1/2)
      (by decide) (by decide) (by decide) (Or.inr (by decide))⟩

/-! ## Claim C4: cache round trip (corrected) -/

theorem cacheLookup_cacheInsert (key r : String) (c : List (String × String)) :
    cacheLookup key (cacheInsert key r c) = some r := by
  induction c with
  | nil => simp [cacheInsert, cacheLookup, List.find?]
  | cons kv rest ih =>
      by_cases hk : kv.1 = key
      · simp [cacheInsert, hk, cacheLookup, List.find?]
      · simp only [cacheInsert, if_neg hk]
        simpa [cacheLookup, List.find?, hk] using ih

theorem attemptProvider_cases (env : Env) (p : Provider) (prompt : String)
    (now : ℚ) (st : RouterState) :
    ((attemptProvider env p prompt now st).1 = none ∧
      (attemptProvider env p prompt now st).2.successes = st.successes) ∨
    (∃ t, (attemptProvider env p prompt now st).1 = some t ∧
      (attemptProvider env p prompt now st).2.successes = st.successes + 1) := by
  simp only [attemptProvider]
  split
  · exact Or.inl ⟨rfl, rfl⟩
  · split
    · exact Or.inl ⟨rfl, rfl⟩
    · split
      · next t _ => exact Or.inr ⟨t, rfl, rfl⟩
      · exact Or.inl ⟨rfl, rfl⟩

theorem runProviders_successes_le (env : Env) (prompt : String) (now : ℚ)
    (ps : List Provider) (st : RouterState) :
    (runProviders env prompt now ps st).2.successes ≤ st.successes + 1 := by
  induction ps generalizing st with
  | nil => exact Nat.le_succ _
  | cons p ps ih =>
      simp only [runProviders]
      cases hA : attemptProvider env p prompt now st with
      | mk fst snd =>
          rcases attemptProvider_cases env p prompt now st with ⟨h1, h2⟩ | ⟨t, h1, h2⟩
          · rw [hA] at h1 h2
            simp only at h1 h2
            subst h1
            exact (ih snd).trans (Nat.le_of_eq (by rw [h2]))
          · rw [hA] at h1 h2
            simp only at h1 h2
            subst h1
            exact Nat.le_of_eq h2

def c4Env : Env :=
  ⟨true, true, fun _ => none, true, true, fun _ => some "ok", true⟩

def c4St : RouterState := ⟨⟨2, 60, 60, 0⟩, [], 0, 0⟩

def c4Call1 : String × RouterState :=
  call_llm_router (fun s => s) c4Env "p" "general" false none none 0 c4St

def c4Call2 : String × RouterState :=
  call_llm_router (fun s => s) c4Env "p" "general" false none none 1 c4Call1.2

unseal Rat.add Rat.mul Rat.inv Rat.sub Rat.ofScientific in
set_option maxRecDepth 100000 in
/-- Counterexample to C4 as stated: with Gemini configured but failing
live (key and SDK present, invocation raises) and Groq succeeding, the
first dispatch succeeds (`"ok"`, not the advisory) and its cache write
succeeds, and the second identical dispatch is a pure cache hit — yet
TWO live provider calls were made across the two dispatches (both
during the first), refuting "at most one live provider call across the
two calls". -/
theorem call_llm_router_c4_counterexample :
    c4Env.cacheAvailable = true ∧
    c4Call1.1 = "ok" ∧ c4Call1.1 ≠ overloadMsg ∧
    c4Call2 = ("ok", c4Call1.2) ∧
    c4St.attempts = 0 ∧ c4Call2.2.attempts = 2 ∧
    ¬ (c4Call2.2.attempts - c4St.attempts ≤ 1) := by
  refine ⟨rfl, by decide, by decide, by decide, rfl, by decide, by decide⟩

/-- C4 (amended).  If a first non-simulation dispatch with a given
(prompt, category, model override, preference) returns a non-advisory
text and the cache is available, then a second identical dispatch
returns exactly the first text with the router state unchanged — no
provider call, no token-bucket consumption, no cache write — and at most
one *successful* provider call occurs across the two dispatches (the
first dispatch may additionally contain failed live attempts while
failing over). -/
theorem call_llm_router_cache_reuse (sha : String → String) (env : Env)
    (prompt category : String) (mo prefer : Option String) (now1 now2 : ℚ)
    (st : RouterState)
    (hcache : env.cacheAvailable = true)
    (hok : (call_llm_router sha env prompt category false mo prefer now1 st).1 ≠
      overloadMsg) :
    call_llm_router sha env prompt category false mo prefer now2
        (call_llm_router sha env prompt category false mo prefer now1 st).2 =
      ((call_llm_router sha env prompt category false mo prefer now1 st).1,
        (call_llm_router sha env prompt category false mo prefer now1 st).2) ∧
    (call_llm_router sha env prompt category false mo prefer now1 st).2.successes ≤
      st.successes + 1 := by
  have hsim : ¬ ((false : Bool) = true) := by simp
  set k := cache_key sha prompt category (routerModel mo prefer) with hk
  cases hH : routerHit env st k with
  | some v =>
      have hcall1 : call_llm_router sha env prompt category false mo prefer now1 st =
          (v, st) := by
        simp only [call_llm_router, if_neg hsim, hH]
      rw [hcall1]
      refine ⟨?_, Nat.le_succ _⟩
      simp only [call_llm_router, if_neg hsim, hH]
  | none =>
      cases hR : runProviders env prompt now1 (routerSeq prefer) st with
      | mk res st' =>
          cases res with
          | none =>
              exfalso
              apply hok
              simp only [call_llm_router, if_neg hsim, hH, hR, routerFinish]
          | some r =>
              have hcall1 : call_llm_router sha env prompt category false mo prefer now1 st =
                  (r, { st' with cache := cacheInsert k r st'.cache }) := by
                simp [call_llm_router, if_neg hsim, ← hk, hH, hR, routerFinish, hcache]
              rw [hcall1]
              constructor
              · have hhit2 : routerHit env { st' with cache := cacheInsert k r st'.cache }
                    k = some r := by
                  simp only [routerHit, hcache, if_pos rfl]
                  exact cacheLookup_cacheInsert _ _ _
                simp only [call_llm_router, if_neg hsim, ← hk, hhit2]
              · have := runProviders_successes_le env prompt now1 (routerSeq prefer) st
                rw [hR] at this
                exact this

unseal Rat.add Rat.mul Rat.inv Rat.sub Rat.ofScientific in
set_option maxRecDepth 100000 in
/-- Witness for C4 (amended) at the concrete failover environment. -/
theorem call_llm_router_cache_reuse_w :
    c4Env.cacheAvailable = true ∧ c4Call1.1 ≠ overloadMsg ∧
    (call_llm_router (fun s => s) c4Env "p" "general" false none none 1 c4Call1.2 =
      (c4Call1.1, c4Call1.2) ∧
      c4Call1.2.successes ≤ c4St.successes + 1) :=
  ⟨rfl, by decide,
    call_llm_router_cache_reuse (fun s => s) c4Env "p" "general" none none 0 1 c4St
      rfl (by decide)⟩

/-! ## Claim C10: the fingerprint is a function of the plain concatenation -/

/-- Environment for the C10 run: Gemini returns a fixed well-formed
evaluation reply for every prompt; the name reply carries no `name`
field, so the name stays `None`. -/
def c10Env : Env :=
  ⟨true, true,
    fun _ => some "\x7b\"score\": 50, \"pros\": [], \"cons\": [], \"rationale\": \"ok\"\x7d",
    false, false, fun _ => none, false⟩

def c10St : RouterState := ⟨⟨2, 60, 60, 0⟩, [], 0, 0⟩

/-- First submission: resume `"AB"` with job description `"C"`. -/
def c10Run1 : Except String (List PyVal × RouterState × DB) :=
  screen_files (fun s => s) c10Env "T1" [⟨"a.txt", .ok "AB"⟩] "C" 0 c10St DB.empty

def c10Mid : RouterState × DB :=
  match c10Run1 with
  | .ok (_, st, db) => (st, db)
  | .error _ => (c10St, DB.empty)

/-- Second submission: the distinct pair `("A", "BC")` with the same
concatenation. -/
def c10Run2 : Except String (List PyVal × RouterState × DB) :=
  screen_files (fun s => s) c10Env "T2" [⟨"b.txt", .ok "A"⟩] "BC" 0 c10Mid.1 c10Mid.2

unseal Rat.add Rat.mul Rat.inv Rat.sub Rat.ofScientific in
set_option maxRecDepth 100000 in
/-- C10.  `make_fingerprint` hashes the plain concatenation
`resume_text + job_description`, so any two pairs with equal
concatenation — for every digest function — collide; consequently the
pipeline reports the boundary-shifted pair `("A", "BC")` as a duplicate
(`status="reused"`) of the previously screened distinct pair
`("AB", "C")`. -/
theorem make_fingerprint_concat_collision :
    (∀ (sha : String → String) (r1 j1 r2 j2 : String), r1 ++ j1 = r2 ++ j2 →
      make_fingerprint sha r1 j1 = make_fingerprint sha r2 j2) ∧
    (("AB", "C") ≠ ("A", "BC")) ∧
    ("AB" ++ "C" = "A" ++ "BC") ∧
    (c10Run1.toOption.map (fun o => o.1.map (fun r => pyGet r "status")) =
      some [.str "new"]) ∧
    (c10Run2.toOption.map (fun o => o.1.map (fun r =>
        (pyGet r "status", pyGet r "candidate_id"))) =
      some [(.str "reused", .num 1)]) := by
  refine ⟨?_, by decide, by decide, by decide, by decide⟩
  intro sha r1 j1 r2 j2 h
  unfold make_fingerprint
  rw [h]

/-- Witness for C10: the collision equation at the concrete digest
`id` and the boundary-shifted pair. -/
theorem make_fingerprint_concat_collision_w :
    ("AB" ++ "C" = "A" ++ "BC") ∧
    make_fingerprint (fun s => s) "AB" "C" = make_fingerprint (fun s => s) "A" "BC" :=
  ⟨by decide,
    make_fingerprint_concat_collision.1 (fun s => s) "AB" "C" "A" "BC" (by decide)⟩

/-! ## Claim C1: the Deduplicated result (code bug in `get_candidate`) -/

def c1R : String := "Alice Smith resume. Python developer."

def c1J : String := "Engineer role description."

/-- Environment for the C1 run: Gemini answers the name prompt with an
accepted name and the evaluation prompt with a score-85 record. -/
def c1Env : Env :=
  ⟨true, true,
    fun p =>
      if p = name_prompt c1R then
        some "\x7b\"name\": \"Alice Smith\", \"confidence\": 0.9\x7d"
      else if p = analyze_fit_prompt c1R c1J then
        some "\x7b\"score\": 85, \"pros\": [\"a\", \"b\", \"c\"], \"cons\": [\"d\", \"e\", \"f\"], \"rationale\": \"Strong fit.\"\x7d"
      else none,
    false, false, fun _ => none, false⟩

def c1St : RouterState := ⟨⟨2, 120, 120, 0⟩, [], 0, 0⟩

def c1Run1 : Except String (List PyVal × RouterState × DB) :=
  screen_files (fun s => s) c1Env "T1" [⟨"a.txt", .ok c1R⟩] c1J 0 c1St DB.empty

def c1Mid : RouterState × DB :=
  match c1Run1 with
  | .ok (_, st, db) => (st, db)
  | .error _ => (c1St, DB.empty)

/-- Second submission of the identical (resume, job-description) pair. -/
def c1Run2 : Except String (List PyVal × RouterState × DB) :=
  screen_files (fun s => s) c1Env "T2" [⟨"b.txt", .ok c1R⟩] c1J 5 c1Mid.1 c1Mid.2

unseal Rat.add Rat.mul Rat.inv Rat.sub Rat.ofScientific in
set_option maxRecDepth 100000 in
/-- C1 (code bug).  Dedup short-circuits correctly (the reused item
makes no provider call and carries the right id), but `get_candidate`
indexes the `SELECT *` row with the pre-`candidate_name` column layout,
so on the schema `init_db` creates the reused result returns the stored
*job-description text* as `score`, the stored *rationale* as
`recommendation`, and `candidate_name = None` — not the stored score 85,
recommendation `"interview"`, and name `"Alice Smith"` that were
returned when the record was first created. -/
theorem screen_files_c1_code_bug :
    (c1Run1.toOption.map (fun o => o.1.map (fun r =>
        (pyGet r "status", pyGet r "score", pyGet r "recommendation",
          pyGet r "candidate_name"))) =
      some [(.str "new", .num 85, .str "interview", .str "Alice Smith")]) ∧
    (c1Mid.2.rows.map (fun row =>
        (row.getD 1 .null, row.getD 4 .null, row.getD 8 .null)) =
      [(SQLVal.text "Alice Smith", SQLVal.int 85, SQLVal.text "interview")]) ∧
    (c1Run2.toOption.map (fun o => o.1.map (fun r =>
        (pyGet r "status", pyGet r "candidate_id", pyGet r "score",
          pyGet r "recommendation", pyGet r "candidate_name"))) =
      some [(.str "reused", .num 1, .str c1J, .str "Strong fit.", .null)]) ∧
    (c1Run2.toOption.map (fun o => o.2.1) = some c1Mid.1) ∧
    ((PyVal.str c1J) ≠ .num 85) ∧
    ((PyVal.str "Strong fit.") ≠ .str "interview") ∧
    ((PyVal.null) ≠ .str "Alice Smith") := by
  refine ⟨by decide, by decide, by decide, by decide, by decide, by decide, by decide⟩

/-! ## Claim C9: batch isolation (corrected)

The loop body only guards text extraction and validation with
`try/except`; the evaluation/decision/insert steps can raise for
degenerate — but syntactically valid — model replies.  `goodEval`
captures the replies for which those later steps cannot raise: the
two-stage parse produced a dict whose `score` is numeric (or absent) and
whose `rationale` is SQL-storable.  The parse fallback record itself is
good, so this covers every unparseable reply, in particular the overload
advisory under total provider outage. -/

/-- The evaluation records for which decision and insertion cannot raise. -/
def goodEval : PyVal → Bool
  | .obj kvs =>
      (pyNumeric (pyGetD (.obj kvs) "score" (.num 0))).isSome &&
      (toSQL (pyGet (.obj kvs) "rationale")).isSome
  | _ => false

/-- A stored row whose `id` column is a non-zero integer (every row the
pipeline itself inserts has this shape). -/
def goodRow (row : List SQLVal) : Bool :=
  match row.getD 0 .null with
  | .int n => n ≠ 0
  | _ => false

def DBGood (db : DB) : Prop :=
  1 ≤ db.nextId ∧ ∀ row ∈ db.rows, goodRow row = true

/-- Every text either provider can return parses to a good evaluation. -/
def GoodProviderReplies (env : Env) : Prop :=
  (∀ p t, env.geminiReply p = some t → goodEval (analyze_fit_parse t) = true) ∧
  (∀ p t, env.groqReply p = some t → goodEval (analyze_fit_parse t) = true)

def CacheGood (cache : List (String × String)) : Prop :=
  ∀ kv ∈ cache, goodEval (analyze_fit_parse kv.2) = true

set_option maxRecDepth 40000 in
theorem goodEval_overloadMsg : goodEval (analyze_fit_parse overloadMsg) = true := by
  decide

theorem cacheInsert_mem (key r : String) (c : List (String × String))
    (kv : String × String) (h : kv ∈ cacheInsert key r c) :
    kv = (key, r) ∨ kv ∈ c := by
  induction c with
  | nil => simpa [cacheInsert] using h
  | cons kv' rest ih =>
      by_cases hk : kv'.1 = key
      · rw [cacheInsert, if_pos hk] at h
        rcases List.mem_cons.mp h with h | h
        · exact Or.inl h
        · exact Or.inr (List.mem_cons_of_mem _ h)
      · rw [cacheInsert, if_neg hk] at h
        rcases List.mem_cons.mp h with h | h
        · exact Or.inr (h ▸ List.mem_cons_self _ _)
        · rcases ih h with h | h
          · exact Or.inl h
          · exact Or.inr (List.mem_cons_of_mem _ h)

theorem cacheLookup_mem (key v : String) (c : List (String × String))
    (h : cacheLookup key c = some v) : (key, v) ∈ c := by
  unfold cacheLookup at h
  cases hf : c.find? (fun kv => kv.1 = key) with
  | none => rw [hf] at h; exact absurd h (by simp)
  | some kv =>
      rw [hf] at h
      have hkv : kv.2 = v := by simpa using h
      have hmem := List.mem_of_find?_eq_some hf
      have hkey : kv.1 = key := by
        have := List.find?_some hf
        simpa using this
      have : kv = (key, v) := Prod.ext hkey hkv
      exact this ▸ hmem

/-- The router reply invariant: from good provider replies and a good
cache, every non-simulation dispatch yields a good reply and preserves
cache goodness. -/
theorem call_llm_router_good (sha : String → String) (env : Env)
    (prompt category : String) (mo prefer : Option String) (now : ℚ)
    (st : RouterState) (henv : GoodProviderReplies env)
    (hcache : CacheGood st.cache) :
    goodEval (analyze_fit_parse
      (call_llm_router sha env prompt category false mo prefer now st).1) = true ∧
    CacheGood (call_llm_router sha env prompt category false mo prefer now st).2.cache := by
  have hsim : ¬ ((false : Bool) = true) := by simp
  have hreply : ∀ (p : Provider) (t : String), env.replyFor p prompt = some t →
      goodEval (analyze_fit_parse t) = true := by
    intro p t h
    cases p
    · exact henv.1 prompt t h
    · exact henv.2 prompt t h
  set k := cache_key sha prompt category (routerModel mo prefer) with hk
  cases hH : routerHit env st k with
  | some v =>
      have hgood : goodEval (analyze_fit_parse v) = true := by
        unfold routerHit at hH
        by_cases hav : env.cacheAvailable
        · rw [if_pos hav] at hH
          exact hcache _ (cacheLookup_mem k v st.cache hH)
        · rw [if_neg hav] at hH
          exact absurd hH (by simp)
      constructor
      · simpa [call_llm_router, if_neg hsim, ← hk, hH] using hgood
      · simpa [call_llm_router, if_neg hsim, ← hk, hH] using hcache
  | none =>
      cases hR : runProviders env prompt now (routerSeq prefer) st with
      | mk res st' =>
          have hcache' : CacheGood st'.cache := by
            have hceq := runProviders_cache_eq env prompt now (routerSeq prefer) st
            rw [hR] at hceq
            simp only at hceq
            intro kv hkv
            exact hcache kv (by rw [← hceq]; exact hkv)
          cases res with
          | none =>
              constructor
              · simpa [call_llm_router, if_neg hsim, ← hk, hH, hR, routerFinish]
                  using goodEval_overloadMsg
              · simpa [call_llm_router, if_neg hsim, ← hk, hH, hR, routerFinish]
                  using hcache'
          | some r =>
              have hr : goodEval (analyze_fit_parse r) = true := by
                have := runProviders_reply_of_fst_some env prompt now
                  (routerSeq prefer) st r (by rw [hR])
                obtain ⟨p, _, hp⟩ := this
                exact hreply p r hp
              constructor
              · simpa [call_llm_router, if_neg hsim, ← hk, hH, hR, routerFinish]
                  using hr
              · by_cases hav : env.cacheAvailable
                · intro kv hkv
                  have : kv ∈ cacheInsert k r st'.cache := by
                    simpa [call_llm_router, if_neg hsim, ← hk, hH, hR, routerFinish,
                      hav] using hkv
                  rcases cacheInsert_mem k r st'.cache kv this with h | h
                  · rw [h]; exact hr
                  · exact hcache' kv h
                · intro kv hkv
                  have : kv ∈ st'.cache := by
                    simpa [call_llm_router, if_neg hsim, ← hk, hH, hR, routerFinish,
                      hav] using hkv
                  exact hcache' kv this

/-- A good evaluation makes `recommend_action` return a well-shaped
decision dict. -/
theorem recommend_action_of_goodEval (v : PyVal) (h : goodEval v = true) :
    ∃ (rec : String) (conf : ℚ) (reason : String),
      recommend_action v = .ok (.obj [("recommendation", .str rec),
        ("confidence", .num conf), ("reason", .str reason)]) := by
  cases v with
  | obj kvs =>
      have hs : (pyNumeric (pyGetD (.obj kvs) "score" (.num 0))).isSome := by
        simp only [goodEval, Bool.and_eq_true] at h
        exact h.1
      obtain ⟨score, hscore⟩ := Option.isSome_iff_exists.mp hs
      simp only [recommend_action, hscore]
      by_cases h75 : 75 ≤ score
      · rw [if_pos h75]; exact ⟨_, _, _, rfl⟩
      · rw [if_neg h75]
        by_cases h60 : 60 ≤ score
        · rw [if_pos h60]; exact ⟨_, _, _, rfl⟩
        · rw [if_neg h60]; exact ⟨_, _, _, rfl⟩
  | null => simp [goodEval] at h
  | bool b => simp [goodEval] at h
  | num q => simp [goodEval] at h
  | str s => simp [goodEval] at h
  | arr xs => simp [goodEval] at h

/-- A good evaluation, a well-shaped decision and a fresh fingerprint make
`insert_candidate` succeed, appending one good row. -/
theorem insert_candidate_of_good (resume job : String) (ev : PyVal)
    (rec reason : String) (conf : ℚ) (fp : String) (nm : Option String)
    (created : String) (db : DB) (hev : goodEval ev = true)
    (hfp : ∀ row ∈ db.rows, ¬ (row.getD 11 .null = .text fp))
    (hnext : 1 ≤ db.nextId) :
    ∃ row : List SQLVal,
      insert_candidate resume job ev (.obj [("recommendation", .str rec),
          ("confidence", .num conf), ("reason", .str reason)]) fp nm created db =
        .ok (db.nextId, ⟨db.rows ++ [row], db.nextId + 1⟩) ∧
      goodRow row = true ∧ row.getD 11 .null = .text fp ∧
      row.getD 0 .null = .int db.nextId := by
  cases ev with
  | obj kvs =>
      simp only [goodEval, Bool.and_eq_true] at hev
      have hscore : (toSQL (pyGet (.obj kvs) "score")).isSome := by
        have h1 := hev.1
        simp only [pyGetD] at h1
        simp only [pyGet, pyGetD]
        cases hd : dictGet kvs "score" with
        | none => simp [toSQL]
        | some v =>
            rw [hd] at h1
            simp only [Option.getD_some] at h1
            cases v <;> simp_all [pyNumeric, toSQL]
      obtain ⟨sqlScore, hsqlScore⟩ := Option.isSome_iff_exists.mp hscore
      obtain ⟨sqlRat, hsqlRat⟩ := Option.isSome_iff_exists.mp hev.2
      have hany : (db.rows.any (fun r => r.getD 11 .null = .text fp)) = false := by
        rw [List.any_eq_false]
        intro row hrow
        simpa using hfp row hrow
      refine ⟨[.int db.nextId,
          (match nm with | some s => SQLVal.text s | none => SQLVal.null),
          .text resume, .text job, sqlScore,
          .text (jsonDumps (pyGetD (.obj kvs) "pros" (.arr []))),
          .text (jsonDumps (pyGetD (.obj kvs) "cons" (.arr []))),
          sqlRat, .text rec,
          (if conf.den = 1 then SQLVal.int conf.num else SQLVal.real conf),
          .text reason, .text fp, .text created], ?_, ?_, by simp, by simp⟩
      · simp only [insert_candidate, hsqlScore, hsqlRat, hany, Bool.false_eq_true,
          if_false]
        simp [pyGet, pyGetD, dictGet, List.find?, toSQL]
      · have hnz : db.nextId ≠ 0 := by omega
        simp [goodRow, hnz]
  | null => simp [goodEval] at hev
  | bool b => simp [goodEval] at hev
  | num q => simp [goodEval] at hev
  | str s => simp [goodEval] at hev
  | arr xs => simp [goodEval] at hev

/-- A fingerprint hit always yields a readable record (`get_candidate`
finds the row by id). -/
theorem get_candidate_of_find (fp : String) (db : DB) (id : ℤ)
    (h : find_candidate_by_fingerprint fp db = some id) :
    ∃ c, get_candidate id db = some c := by
  unfold find_candidate_by_fingerprint at h
  cases hf : db.rows.find? (fun r => r.getD 11 .null = .text fp) with
  | none => rw [hf] at h; exact absurd h (by simp)
  | some row =>
      rw [hf] at h
      simp only [Option.some_bind] at h
      have hrow0 : row.getD 0 .null = .int id := by
        cases h0 : row.getD 0 .null <;> rw [h0] at h <;> simp_all
      have hmem := List.mem_of_find?_eq_some hf
      have : (db.rows.find? (fun r => r.getD 0 .null = .int id)).isSome := by
        rw [List.find?_isSome]
        exact ⟨row, hmem, by simpa [List.getD] using hrow0⟩
      obtain ⟨row', hrow'⟩ := Option.isSome_iff_exists.mp this
      rw [← Option.isSome_iff_exists]
      unfold get_candidate
      rw [hrow']
      rfl

theorem find_candidate_ne_zero (fp : String) (db : DB) (id : ℤ)
    (hdb : DBGood db) (h : find_candidate_by_fingerprint fp db = some id) :
    id ≠ 0 := by
  unfold find_candidate_by_fingerprint at h
  cases hf : db.rows.find? (fun r => r.getD 11 .null = .text fp) with
  | none => rw [hf] at h; exact absurd h (by simp)
  | some row =>
      rw [hf, Option.some_bind] at h
      have hg := hdb.2 row (List.mem_of_find?_eq_some hf)
      unfold goodRow at hg
      cases h0 : row.getD 0 .null with
      | int n =>
          rw [h0] at h hg
          have : n = id := by simpa using h
          subst this
          simpa using hg
      | null => rw [h0] at h; simp at h
      | real q => rw [h0] at h; simp at h
      | text s => rw [h0] at h; simp at h

theorem find_candidate_none_no_fp (fp : String) (db : DB)
    (hdb : DBGood db) (h : find_candidate_by_fingerprint fp db = none) :
    ∀ row ∈ db.rows, ¬ (row.getD 11 .null = .text fp) := by
  intro row hmem hfp
  unfold find_candidate_by_fingerprint at h
  cases hf : db.rows.find? (fun r => r.getD 11 .null = .text fp) with
  | none =>
      have := List.find?_eq_none.mp hf row hmem
      exact this (by simpa [List.getD] using hfp)
  | some row2 =>
      rw [hf, Option.some_bind] at h
      have hg := hdb.2 row2 (List.mem_of_find?_eq_some hf)
      unfold goodRow at hg
      cases h0 : row2.getD 0 .null with
      | int n => rw [h0] at h; simp at h
      | null => rw [h0] at hg; simp at hg
      | real q => rw [h0] at hg; simp at hg
      | text s => rw [h0] at hg; simp at hg

/-- Evaluation of `screen_new` once the decision and the insertion are
known to succeed. -/
theorem screen_new_eq (sha : String → String) (env : Env)
    (created_at job : String) (f : FileInput) (resume fp : String) (now : ℚ)
    (st : RouterState) (db : DB) (rec reason : String) (conf : ℚ) (id' : ℤ)
    (db' : DB)
    (hdec : recommend_action (analyze_fit sha env resume job now
        (extract_candidate_name sha env resume now st).2).1 =
      .ok (.obj [("recommendation", .str rec), ("confidence", .num conf),
        ("reason", .str reason)]))
    (hins : insert_candidate resume job
        (analyze_fit sha env resume job now
          (extract_candidate_name sha env resume now st).2).1
        (.obj [("recommendation", .str rec), ("confidence", .num conf),
          ("reason", .str reason)])
        fp (extract_candidate_name sha env resume now st).1.name created_at db =
      .ok (id', db')) :
    screen_new sha env created_at job f resume fp now st db =
      .ok (.obj [("file", .str f.name), ("candidate_id", .num id'),
          ("candidate_name",
            match (extract_candidate_name sha env resume now st).1.name with
            | some s => PyVal.str s
            | none => PyVal.null),
          ("status", .str "new"),
          ("score", pyGet (analyze_fit sha env resume job now
            (extract_candidate_name sha env resume now st).2).1 "score"),
          ("recommendation", pyGet (.obj [("recommendation", .str rec),
            ("confidence", .num conf), ("reason", .str reason)])
            "recommendation")],
        (analyze_fit sha env resume job now
          (extract_candidate_name sha env resume now st).2).2, db') := by
  simp only [screen_new, hdec, hins]

/-- Under good provider replies, a good cache and a good database, the
loop body for one file cannot raise: it yields exactly one result, with
the goodness invariants preserved, and an extraction/validation failure
yields the per-item `invalid` result leaving state and database
untouched. -/
theorem screen_one_good (sha : String → String) (env : Env)
    (created_at job : String) (f : FileInput) (now : ℚ) (st : RouterState)
    (db : DB) (henv : GoodProviderReplies env) (hcache : CacheGood st.cache)
    (hdb : DBGood db) :
    ∃ r st' db', screen_one sha env created_at job f now st db = .ok (r, st', db') ∧
      CacheGood st'.cache ∧ DBGood db' ∧ pyGet r "file" = .str f.name ∧
      (∀ e, f.parsed.bind (fun t => validate_text_field t "resume_text") = .error e →
        r = .obj [("file", .str f.name), ("status", .str "invalid"),
          ("error", .str e)] ∧ st' = st ∧ db' = db) := by
  cases hv : f.parsed.bind (fun t => validate_text_field t "resume_text") with
  | error e =>
      refine ⟨.obj [("file", .str f.name), ("status", .str "invalid"),
        ("error", .str e)], st, db, by simp only [screen_one, hv], hcache, hdb,
        ?_, ?_⟩
      · simp [pyGet, pyGetD, dictGet, List.find?]
      · intro e' he'
        have : e = e' := by simpa using he'
        subst this
        exact ⟨rfl, rfl, rfl⟩
  | ok resume =>
      have hvac : ∀ e, Except.ok (ε := String) resume = .error e → False := by
        intro e he
        simp at he
      cases hfind : find_candidate_by_fingerprint (make_fingerprint sha resume job) db with
      | some id =>
          have hid : id ≠ 0 := find_candidate_ne_zero _ db id hdb hfind
          obtain ⟨c, hc⟩ := get_candidate_of_find _ db id hfind
          refine ⟨.obj [("file", .str f.name), ("candidate_id", .num id),
            ("candidate_name", pyGet c "candidate_name"), ("status", .str "reused"),
            ("score", pyGet c "score"),
            ("recommendation", pyGet c "recommendation")], st, db, ?_, hcache, hdb,
            ?_, ?_⟩
          · simp only [screen_one, hv, hfind, if_pos hid, hc]
          · simp [pyGet, pyGetD, dictGet, List.find?]
          · intro e he
            exact absurd he (by simp)
      | none =>
          have h1 := call_llm_router_good sha env (name_prompt resume)
            "recruiter_name" none (some "gemini") now st henv hcache
          have h1cache : CacheGood
              ((extract_candidate_name sha env resume now st).2).cache := h1.2
          have h2 := call_llm_router_good sha env (analyze_fit_prompt resume job)
            "recruiter_eval" none (some "gemini") now
            ((extract_candidate_name sha env resume now st).2) henv h1cache
          have hev : goodEval ((analyze_fit sha env resume job now
              ((extract_candidate_name sha env resume now st).2)).1) = true := h2.1
          have h2cache : CacheGood ((analyze_fit sha env resume job now
              ((extract_candidate_name sha env resume now st).2)).2).cache := h2.2
          obtain ⟨rec, conf, reason, hdec⟩ := recommend_action_of_goodEval _ hev
          obtain ⟨row, hins, hrowgood, hrowfp, hrowid⟩ :=
            insert_candidate_of_good resume job _ rec reason conf
              (make_fingerprint sha resume job)
              (extract_candidate_name sha env resume now st).1.name created_at db
              hev (find_candidate_none_no_fp _ db hdb hfind) hdb.1
          have hone : screen_one sha env created_at job f now st db =
              screen_new sha env created_at job f resume
                (make_fingerprint sha resume job) now st db := by
            simp only [screen_one, hv, hfind]
          refine ⟨_, _, _,
            hone.trans (screen_new_eq sha env created_at job f resume
              (make_fingerprint sha resume job) now st db rec reason conf
              db.nextId ⟨db.rows ++ [row], db.nextId + 1⟩ hdec hins),
            h2cache, ?_, ?_, ?_⟩
          · constructor
            · show (1 : ℤ) ≤ db.nextId + 1
              have := hdb.1
              omega
            · intro r hr
              rcases List.mem_append.mp hr with h | h
              · exact hdb.2 r h
              · rw [List.mem_singleton.mp h]
                exact hrowgood
          · simp [pyGet, pyGetD, dictGet, List.find?]
          · intro e he
            exact absurd he (by simp)

/-- The loop preserves the invariants and produces exactly one result per
file, in order. -/
theorem screen_loop_good (sha : String → String) (env : Env)
    (created_at job : String) (now : ℚ) :
    ∀ (files : List FileInput) (st : RouterState) (db : DB),
      GoodProviderReplies env → CacheGood st.cache → DBGood db →
      ∃ results st' db',
        screen_loop sha env created_at job files now st db = .ok (results, st', db') ∧
        results.length = files.length ∧
        results.map (fun r => pyGet r "file") =
          files.map (fun f => PyVal.str f.name) ∧
        (∀ f ∈ files, ∀ e,
          f.parsed.bind (fun t => validate_text_field t "resume_text") = .error e →
          (PyVal.obj [("file", .str f.name), ("status", .str "invalid"),
            ("error", .str e)]) ∈ results) := by
  intro files
  induction files with
  | nil =>
      intro st db _ _ _
      exact ⟨[], st, db, rfl, rfl, rfl, by simp⟩
  | cons f fs ih =>
      intro st db henv hcache hdb
      obtain ⟨r, st', db', hone, hcache', hdb', hfile, hinv⟩ :=
        screen_one_good sha env created_at job f now st db henv hcache hdb
      obtain ⟨results, st'', db'', hloop, hlen, hmap, hmem⟩ :=
        ih st' db' henv hcache' hdb'
      refine ⟨r :: results, st'', db'', ?_, by simp [hlen], by simp [hmap, hfile], ?_⟩
      · simp only [screen_loop, hone, hloop, Except.map]
      · intro g hg e he
        rcases List.mem_cons.mp hg with hgf | hgf
        · subst hgf
          rw [(hinv e he).1]
          exact List.mem_cons_self _ _
        · exact List.mem_cons_of_mem _ (hmem g hgf e he)

/-- Environment for the C9 counterexample: Gemini replies with the valid
JSON array `[0]` to every prompt. -/
def c9Env : Env :=
  ⟨true, true, fun _ => some "[0]", false, false, fun _ => none, false⟩

def c9St : RouterState := ⟨⟨2, 60, 60, 0⟩, [], 0, 0⟩

unseal Rat.add Rat.mul Rat.inv Rat.sub Rat.ofScientific in
set_option maxRecDepth 100000 in
/-- Counterexample to C9 as stated: a batch of one file with perfectly
valid text and job description aborts wholesale when the model's
evaluation reply is the *valid JSON array* `[0]` — `analyze_fit` returns
the parsed list, `recommend_action` tolerates it, but
`insert_candidate`'s `evaluation.get(...)` raises `AttributeError`,
which is outside the per-file `try/except`, so `screen_files` raises
instead of producing one result per file. -/
theorem screen_files_c9_counterexample :
    (pyStrip "J" ≠ "") ∧
    (validate_text_field "R" "resume_text" = .ok "R") ∧
    (json_loads "[0]" = some (.arr [.num 0])) ∧
    (screen_files (fun s => s) c9Env "T" [⟨"a.txt", .ok "R"⟩] "J" 0 c9St DB.empty =
      .error "AttributeError: evaluation has no attribute get") := by
  refine ⟨by decide, by decide, by decide, by decide⟩

/-- C9 (amended).  Provided each provider reply (and each cached
reply) parses — through the two-stage parse with its fallback — to a
dict whose `score` is numeric-or-absent and whose `rationale` is
storable (true in particular for every unparseable reply, e.g. under
total provider outage), and the database rows are well-formed,
`screen_files` with a valid job description returns exactly one result
per file, in order; any file whose text extraction or validation fails
contributes its per-item `invalid` result with the error message, and
the batch continues. -/
theorem screen_files_c9_amended (sha : String → String) (env : Env)
    (created_at : String) (files : List FileInput) (job : String) (now : ℚ)
    (st : RouterState) (db : DB) (hjob : pyStrip job ≠ "")
    (henv : GoodProviderReplies env) (hcache : CacheGood st.cache)
    (hdb : DBGood db) :
    ∃ results st' db',
      screen_files sha env created_at files job now st db = .ok (results, st', db') ∧
      results.length = files.length ∧
      results.map (fun r => pyGet r "file") =
        files.map (fun f => PyVal.str f.name) ∧
      (∀ f ∈ files, ∀ e,
        f.parsed.bind (fun t => validate_text_field t "resume_text") = .error e →
        (PyVal.obj [("file", .str f.name), ("status", .str "invalid"),
          ("error", .str e)]) ∈ results) := by
  have hv : validate_text_field job "job_description" = .ok job := by
    unfold validate_text_field
    rw [if_neg hjob]
  obtain ⟨results, st', db', h1, h2, h3, h4⟩ :=
    screen_loop_good sha env created_at job now files st db henv hcache hdb
  exact ⟨results, st', db', by simp only [screen_files, hv, h1], h2, h3, h4⟩

/-- Environment for the C9 witness: Gemini always replies with a
well-formed evaluation record. -/
def c9wEnv : Env :=
  ⟨true, true, fun _ => some "\x7b\"score\": 10, \"rationale\": \"r\"\x7d",
    false, false, fun _ => none, true⟩

def c9wFiles : List FileInput :=
  [⟨"a.txt", .ok "R"⟩, ⟨"b.txt", .error "ValueError: Unsupported resume format"⟩]

unseal Rat.add Rat.mul Rat.inv Rat.sub Rat.ofScientific in
set_option maxRecDepth 100000 in
/-- Witness for C9 (amended): a two-file batch (one valid file, one whose
extraction failed) under an environment with well-formed replies. -/
theorem screen_files_c9_amended_w :
    (pyStrip "J" ≠ "") ∧ GoodProviderReplies c9wEnv ∧
    CacheGood c9St.cache ∧ DBGood DB.empty ∧
    (∃ results st' db',
      screen_files (fun s => s) c9wEnv "T" c9wFiles "J" 0 c9St DB.empty =
        .ok (results, st', db') ∧
      results.length = c9wFiles.length ∧
      results.map (fun r => pyGet r "file") =
        c9wFiles.map (fun f => PyVal.str f.name) ∧
      (∀ f ∈ c9wFiles, ∀ e,
        f.parsed.bind (fun t => validate_text_field t "resume_text") = .error e →
        (PyVal.obj [("file", .str f.name), ("status", .str "invalid"),
          ("error", .str e)]) ∈ results)) := by
  have henv : GoodProviderReplies c9wEnv := by
    constructor
    · intro p t h
      rw [show t = "\x7b\"score\": 10, \"rationale\": \"r\"\x7d" from
        (Option.some_inj.mp h).symm]
      decide
    · intro p t h
      exact absurd h (by simp [c9wEnv])
  have hcache : CacheGood c9St.cache := by
    intro kv hkv
    exact absurd hkv (List.not_mem_nil kv)
  have hdb : DBGood DB.empty := ⟨by decide, fun row hrow =>
    absurd hrow (List.not_mem_nil row)⟩
  exact ⟨by decide, henv, hcache, hdb,
    screen_files_c9_amended (fun s => s) c9wEnv "T" c9wFiles "J" 0 c9St DB.empty
      (by decide) henv hcache hdb⟩

end Sentiq
